import Mathlib

/-
  Verification development for the zarchive-rs repository.

  The repository wraps a stateful C++ archive engine behind a Rust facade
  (src/reader.rs with an RwLock, src/lib.rs with a RefCell, src/writer.rs
  for packing).  We embed the Rust-side logic shallowly: the external
  engine is an abstract record of primitive operations, machine integers
  become Nat, fallible calls return Except, Rust panics become an explicit
  fatal outcome, and every embedded operation additionally returns the
  trace of lock/borrow acquisitions, engine calls and file-system actions
  it performs, in order.
-/

set_option maxHeartbeats 1600000

/-- Sentinel node handle 0xFFFFFFFF used by the engine for "not found"
(reader.rs line 23 / lib.rs line 24). -/
def ZARCHIVE_INVALID_NODE : Nat := 4294967295

/-- Error enum of the crate (lib.rs lines 6-18, plus the InvalidDestination
variant used by reader.rs line 274). -/
inductive ZArchiveError where
  | InvalidFilePath (s : String)
  | NotADirectory (s : String)
  | MissingFile (s : String)
  | InvalidDestination (s : String)
  | IOError (s : String)
  | Other (s : String)
  deriving Repr, DecidableEq

deriving instance DecidableEq for Except

/-- Outcome of an operation that can panic: either a Rust panic (fatal)
or a normal value. -/
inductive POr (α : Type) where
  | fatal
  | ok (v : α)
  deriving Repr, DecidableEq

/-- Observable actions of an embedded operation, in program order:
RwLock guards (acqW/relW exclusive, acqR/relR shared, reader.rs),
RefCell borrows (bMut/bMutEnd mutable, bShr/bShrEnd shared, lib.rs),
engine primitive calls with their arguments, and host file-system actions. -/
inductive Event where
  | acqW | relW | acqR | relR
  | bMut | bMutEnd | bShr | bShrEnd
  | eOpenFromFile (path : String)
  | eLookUp (path : String) (allowFile allowDirectory : Bool)
  | eIsFile (h : Nat)
  | eIsDirectory (h : Nat)
  | eGetDirEntryCount (h : Nat)
  | eGetDirEntry (h : Nat) (i : Nat)
  | eGetFileSize (h : Nat)
  | eReadFromFile (h : Nat) (offset len : Nat)
  | ePack (inp outp : String)
  | fsRemoveFile (p : String)
  | fsCreateDirAll (p : String)
  | fsFileCreate (p : String)
  | fsSetLen (p : String) (n : Nat)
  | fsWriteAll (p : String)
  deriving Repr, DecidableEq

/-- True for events that are calls into the archive engine (as opposed to
lock traffic or host file-system actions). -/
def Event.isEngineCall : Event → Bool
  | .eOpenFromFile _ => true
  | .eLookUp _ _ _ => true
  | .eIsFile _ => true
  | .eIsDirectory _ => true
  | .eGetDirEntryCount _ => true
  | .eGetDirEntry _ _ => true
  | .eGetFileSize _ => true
  | .eReadFromFile _ _ _ => true
  | .ePack _ _ => true
  | _ => false

/-- Engine calls of a trace, in order. -/
def engineCalls (tr : List Event) : List Event := tr.filter Event.isEngineCall

/-- Split a character list at slashes (the list-level analogue of
String.splitOn "/", written structurally so it computes in the kernel). -/
def splitOnSlash : List Char → List (List Char)
  | [] => [[]]
  | ch :: rest =>
    match splitOnSlash rest with
    | [] => [[ch]]
    | g :: gs => if ch = '/' then [] :: g :: gs else (ch :: g) :: gs

/-- Components of a slash-separated path. -/
def splitPath (p : String) : List String :=
  (splitOnSlash p.data).map (fun l => String.mk l)

/-- Join path components with slashes. -/
def joinComps : List String → String
  | [] => ""
  | [s] => s
  | s :: rest => s ++ "/" ++ joinComps rest

/-- Directory entry record produced by the engine
(ffi::DirEntry, reader.rs lines 433-440). -/
structure FfiDirEntry where
  name : String
  isFile : Bool
  isDirectory : Bool
  size : Nat
  deriving Repr, DecidableEq

instance : Inhabited FfiDirEntry := ⟨⟨"", false, false, 0⟩⟩

/-- Abstract archive engine: the C++ collaborator reached through the ffi
bridge (reader.rs lines 442-475).  Each primitive either raises an
exception (modelled as an error string) or returns a value; LookUp may
also return the invalid-node sentinel inside a successful result.
ReadFromFile returns the bytes actually written; its written count is the
length of that list. -/
structure Engine where
  LookUp : String → Bool → Bool → Except String Nat
  IsFile : Nat → Except String Bool
  IsDirectory : Nat → Except String Bool
  GetDirEntryCount : Nat → Except String Nat
  GetDirEntry : Nat → Nat → Except String (Option FfiDirEntry)
  GetFileSize : Nat → Except String Nat
  ReadFromFile : Nat → Nat → Nat → Except String (List Nat)
  Pack : String → String → Except String Unit

/-- Capacity of the parent-component vector in reader.rs (the tinyvec
ArrayVec of [&str; 5], reader.rs lines 35 and 96).  tinyvec enforces the
bound dynamically: pushing or collecting past it panics.  lib.rs instead
uses a smallvec SmallVec of the same inline size, which spills to the
heap and never overflows. -/
def ARRAYVEC_PARENT_CAPACITY : Nat := 5

/-- Entry handed back while iterating a directory: the engine record plus
the accumulated parent components (reader.rs lines 33-36 / lib.rs lines
31-35).  The parent vector is modelled by its contents list; reader.rs's
ArrayVec capacity bound of ARRAYVEC_PARENT_CAPACITY is enforced, as in
tinyvec itself, at the one place the vector grows - the collect inside
ZR.iter_dir - which panics on overflow, so every DirEntry reader.rs can
actually produce has at most that many parent components. -/
structure DirEntry where
  inner : FfiDirEntry
  parent : List String
  deriving Repr, DecidableEq

/-- Name accessor (reader.rs lines 40-42). -/
def DirEntry.name (d : DirEntry) : String := d.inner.name

/-- File test (reader.rs lines 45-47). -/
def DirEntry.is_file (d : DirEntry) : Bool := d.inner.isFile

/-- Directory test (reader.rs lines 50-52). -/
def DirEntry.is_dir (d : DirEntry) : Bool := d.inner.isDirectory

/-- Full path of an entry: parent components joined with the name by
slashes, bare name at the root (reader.rs lines 60-71). -/
def DirEntry.full_path (d : DirEntry) : String :=
  if d.parent = [] then d.name
  else joinComps (d.parent ++ [d.name])

/-- State of an ArchiveDirIterator (reader.rs lines 92-100 / lib.rs
83-91).  As with DirEntry, the parent vector is its contents list;
reader.rs's ArrayVec bound is enforced at the collect in ZR.iter_dir
(next only copies the vector, so it never grows elsewhere). -/
structure DirIter where
  index : Nat
  count : Nat
  handle : Nat
  parent : List String
  entry : FfiDirEntry
  started : Bool
  deriving Repr, DecidableEq

/-- Constructor ArchiveDirIterator::new (reader.rs lines 103-117). -/
def DirIter.new (handle : Nat) (parent : List String) : DirIter :=
  { index := 0, count := 0, handle := handle, parent := parent,
    entry := default, started := false }

namespace ZR

/-- Embeds ZArchiveReader::file_size (reader.rs lines 184-193): one write
guard, LookUp (file-only), then GetFileSize on the returned handle with no
sentinel check. -/
def file_size (eng : Engine) (file : String) : Option Nat × List Event :=
  match eng.LookUp file true false with
  | .error _ => (none, [.acqW, .eLookUp file true false, .relW])
  | .ok node_handle =>
    match eng.GetFileSize node_handle with
    | .error _ =>
      (none, [.acqW, .eLookUp file true false, .eGetFileSize node_handle, .relW])
    | .ok s =>
      (some s, [.acqW, .eLookUp file true false, .eGetFileSize node_handle, .relW])

/-- Embeds ZArchiveReader::read_file (reader.rs lines 196-222): one write
guard across LookUp, GetFileSize and ReadFromFile; sentinel handle yields
None; a written count differing from the size panics. -/
def read_file (eng : Engine) (file : String) :
    POr (Option (List Nat)) × List Event :=
  match eng.LookUp file true false with
  | .error _ => (.ok none, [.acqW, .eLookUp file true false, .relW])
  | .ok handle =>
    if handle = ZARCHIVE_INVALID_NODE then
      (.ok none, [.acqW, .eLookUp file true false, .relW])
    else
      match eng.GetFileSize handle with
      | .error _ =>
        (.ok none, [.acqW, .eLookUp file true false, .eGetFileSize handle, .relW])
      | .ok size =>
        let tr := [Event.acqW, .eLookUp file true false, .eGetFileSize handle,
          .eReadFromFile handle 0 size, .relW]
        match eng.ReadFromFile handle 0 size with
        | .error _ => (.fatal, tr)
        | .ok buffer =>
          if buffer.length ≠ size then (.fatal, tr)
          else (.ok (some buffer), tr)

/-- Embeds ZArchiveReader::read_from_file (reader.rs lines 290-324): one
write guard across the whole operation; rejects only length > size; a
written count differing from the requested length panics. -/
def read_from_file (eng : Engine) (file : String) (offset len : Nat) :
    POr (Option (List Nat)) × List Event :=
  match eng.LookUp file true false with
  | .error _ => (.ok none, [.acqW, .eLookUp file true false, .relW])
  | .ok handle =>
    if handle = ZARCHIVE_INVALID_NODE then
      (.ok none, [.acqW, .eLookUp file true false, .relW])
    else
      match eng.GetFileSize handle with
      | .error _ =>
        (.ok none, [.acqW, .eLookUp file true false, .eGetFileSize handle, .relW])
      | .ok size =>
        if len > size then
          (.ok none, [.acqW, .eLookUp file true false, .eGetFileSize handle, .relW])
        else
          let tr := [Event.acqW, .eLookUp file true false, .eGetFileSize handle,
            .eReadFromFile handle offset len, .relW]
          match eng.ReadFromFile handle offset len with
          | .error _ => (.fatal, tr)
          | .ok buffer =>
            if buffer.length ≠ len then (.fatal, tr)
            else (.ok (some buffer), tr)

/-- Embeds ZArchiveReader::count_dir_entries (reader.rs lines 418-428):
one write guard across LookUp (directory-only) and GetDirEntryCount;
sentinel yields MissingFile, then a non-directory entry NotADirectory. -/
def count_dir_entries (eng : Engine) (dir : DirEntry) :
    Except ZArchiveError Nat × List Event :=
  match eng.LookUp dir.full_path false true with
  | .error e =>
    (.error (.Other e), [.acqW, .eLookUp dir.full_path false true, .relW])
  | .ok node_handle =>
    if node_handle = ZARCHIVE_INVALID_NODE then
      (.error (.MissingFile dir.full_path),
        [.acqW, .eLookUp dir.full_path false true, .relW])
    else if ¬ dir.is_dir then
      (.error (.NotADirectory dir.full_path),
        [.acqW, .eLookUp dir.full_path false true, .relW])
    else
      match eng.GetDirEntryCount node_handle with
      | .error e =>
        (.error (.Other e), [.acqW, .eLookUp dir.full_path false true,
          .eGetDirEntryCount node_handle, .relW])
      | .ok n =>
        (.ok n, [.acqW, .eLookUp dir.full_path false true,
          .eGetDirEntryCount node_handle, .relW])

/-- Embeds ZArchiveReader::iter_dir (reader.rs lines 387-415): write guard
for the single LookUp; sentinel yields MissingFile, then a non-directory
entry NotADirectory; otherwise the entry's path components are collected
into the iterator's capacity-bounded ArrayVec parent - tinyvec panics
when the collected components exceed ARRAYVEC_PARENT_CAPACITY, which
happens exactly at nesting depth six. -/
def iter_dir (eng : Engine) (dir : DirEntry) :
    POr (Except ZArchiveError DirIter) × List Event :=
  match eng.LookUp dir.full_path false true with
  | .error e =>
    (.ok (.error (.Other e)),
      [.acqW, .eLookUp dir.full_path false true, .relW])
  | .ok node_handle =>
    if node_handle = ZARCHIVE_INVALID_NODE then
      (.ok (.error (.MissingFile dir.full_path)),
        [.acqW, .eLookUp dir.full_path false true, .relW])
    else if ¬ dir.is_dir then
      (.ok (.error (.NotADirectory dir.full_path)),
        [.acqW, .eLookUp dir.full_path false true, .relW])
    else if (dir.parent ++ [dir.name]).length > ARRAYVEC_PARENT_CAPACITY then
      (.fatal, [.acqW, .eLookUp dir.full_path false true, .relW])
    else
      (.ok (.ok (DirIter.new node_handle (dir.parent ++ [dir.name]))),
        [.acqW, .eLookUp dir.full_path false true, .relW])

/-- Embeds ZArchiveReader::iter (reader.rs lines 377-384): write guard for
LookUp of the empty (root) path; sentinel yields MissingFile "archive
root". -/
def iter (eng : Engine) : Except ZArchiveError DirIter × List Event :=
  match eng.LookUp "" false true with
  | .error e => (.error (.Other e), [.acqW, .eLookUp "" false true, .relW])
  | .ok root =>
    if root = ZARCHIVE_INVALID_NODE then
      (.error (.MissingFile "archive root"),
        [.acqW, .eLookUp "" false true, .relW])
    else
      (.ok (DirIter.new root []), [.acqW, .eLookUp "" false true, .relW])

/-- Embeds Iterator::next for ArchiveDirIterator (reader.rs lines
123-152): the started flag is never set, so the count is re-fetched under
a read guard on every call; a GetDirEntry failure or false ends the
iteration. -/
def iterNext (eng : Engine) (it : DirIter) :
    Option DirEntry × DirIter × List Event :=
  let fetch :=
    if ¬ it.started then
      match eng.GetDirEntryCount it.handle with
      | .error _ => none
      | .ok c => some ({ it with count := c },
          [Event.acqR, .eGetDirEntryCount it.handle, .relR])
    else some (it, [])
  match fetch with
  | none => (none, it, [.acqR, .eGetDirEntryCount it.handle, .relR])
  | some (it1, tr0) =>
    if it1.index ≥ it1.count then (none, it1, tr0)
    else
      match eng.GetDirEntry it1.handle it1.index with
      | .error _ =>
        (none, it1, tr0 ++ [.acqR, .eGetDirEntry it1.handle it1.index, .relR])
      | .ok none =>
        (none, it1, tr0 ++ [.acqR, .eGetDirEntry it1.handle it1.index, .relR])
      | .ok (some de) =>
        (some ⟨de, it1.parent⟩,
          { it1 with index := it1.index + 1, entry := de },
          tr0 ++ [.acqR, .eGetDirEntry it1.handle it1.index, .relR])

/-- Embeds the loop body of process_dir_entry inside
ZArchiveReader::get_files (reader.rs lines 329-365).  The Rust code is
recursive with a for-loop over entry indices; here both the loop step and
the descent into a subdirectory consume one unit of fuel (the Rust code
carries no fuel; termination against an arbitrary engine is not
guaranteed there, so the embedding makes the bound explicit).  Each
GetDirEntry and GetDirEntryCount runs under its own read guard and each
LookUp under its own write guard, exactly as in the source; a
subdirectory is re-resolved by its full path with allow_file = false,
allow_directory = true, and only entered when the result is not the
sentinel. -/
def pdeGo (eng : Engine) :
    Nat → Nat → String → Nat → Nat → List String →
    Except ZArchiveError (List String) × List Event
  | 0, _, _, _, _, _ => (.error (.Other "fuel exhausted"), [])
  | fuel+1, node_handle, parent, count, i, files =>
    if i < count then
      match eng.GetDirEntry node_handle i with
      | .error e =>
        (.error (.Other e), [.acqR, .eGetDirEntry node_handle i, .relR])
      | .ok none =>
        let (r, tr) := pdeGo eng fuel node_handle parent count (i+1) files
        (r, [Event.acqR, .eGetDirEntry node_handle i, .relR] ++ tr)
      | .ok (some de) =>
        let full_path := if parent ≠ "" then parent ++ "/" ++ de.name else de.name
        if de.isFile then
          let (r, tr) :=
            pdeGo eng fuel node_handle parent count (i+1) (files ++ [full_path])
          (r, [Event.acqR, .eGetDirEntry node_handle i, .relR] ++ tr)
        else if de.isDirectory then
          match eng.LookUp full_path false true with
          | .error e =>
            (.error (.Other e), [.acqR, .eGetDirEntry node_handle i, .relR,
              .acqW, .eLookUp full_path false true, .relW])
          | .ok next =>
            if next ≠ ZARCHIVE_INVALID_NODE then
              match eng.GetDirEntryCount next with
              | .error e =>
                (.error (.Other e), [.acqR, .eGetDirEntry node_handle i, .relR,
                  .acqW, .eLookUp full_path false true, .relW,
                  .acqR, .eGetDirEntryCount next, .relR])
              | .ok cnt =>
                let pre := [Event.acqR, .eGetDirEntry node_handle i, .relR,
                  .acqW, .eLookUp full_path false true, .relW,
                  .acqR, .eGetDirEntryCount next, .relR]
                match pdeGo eng fuel next full_path cnt 0 files with
                | (.error e, tr1) => (.error e, pre ++ tr1)
                | (.ok files1, tr1) =>
                  let (r, tr2) :=
                    pdeGo eng fuel node_handle parent count (i+1) files1
                  (r, pre ++ tr1 ++ tr2)
            else
              let (r, tr) := pdeGo eng fuel node_handle parent count (i+1) files
              (r, [Event.acqR, .eGetDirEntry node_handle i, .relR,
                .acqW, .eLookUp full_path false true, .relW] ++ tr)
        else
          let (r, tr) := pdeGo eng fuel node_handle parent count (i+1) files
          (r, [Event.acqR, .eGetDirEntry node_handle i, .relR] ++ tr)
    else (.ok files, [])

/-- Embeds ZArchiveReader::get_files (reader.rs lines 328-374): resolves
the root path "" (directory-only) under a write guard; a sentinel root
yields a successful empty listing; otherwise recursively flattens the
tree via pdeGo. -/
def get_files (eng : Engine) (fuel : Nat) :
    Except ZArchiveError (List String) × List Event :=
  match eng.LookUp "" false true with
  | .error e => (.error (.Other e), [.acqW, .eLookUp "" false true, .relW])
  | .ok root =>
    if root = ZARCHIVE_INVALID_NODE then
      (.ok [], [.acqW, .eLookUp "" false true, .relW])
    else
      match eng.GetDirEntryCount root with
      | .error e =>
        (.error (.Other e), [.acqW, .eLookUp "" false true, .relW,
          .acqR, .eGetDirEntryCount root, .relR])
      | .ok count =>
        let (r, tr) := pdeGo eng fuel root "" count 0 []
        (r, [Event.acqW, .eLookUp "" false true, .relW,
          .acqR, .eGetDirEntryCount root, .relR] ++ tr)

end ZR

/-- Archive tree node used to instantiate the abstract engine with a
concrete, well-formed directory tree: a named file with byte contents or
a named directory with a list of children. -/
inductive AEnt where
  | file (name : String) (content : List Nat)
  | dir (name : String) (children : List AEnt)

/-- Path join as performed by the source: parent ++ "/" ++ name, or the
bare name at the root (reader.rs lines 344-348). -/
def joinPath (parent name : String) : String :=
  if parent ≠ "" then parent ++ "/" ++ name else name

mutual

/-- Directory table contributed by one entry: every directory in the
subtree, as a pair of its full path and its children list, in depth-first
pre-order. -/
def dirTableEnt : String → AEnt → List (String × List AEnt)
  | _, .file _ _ => []
  | parent, .dir name children =>
    (joinPath parent name, children) ::
      dirTableList (joinPath parent name) children

/-- Directory table contributed by a forest of entries. -/
def dirTableList : String → List AEnt → List (String × List AEnt)
  | _, [] => []
  | parent, e :: es => dirTableEnt parent e ++ dirTableList parent es

end

/-- Full directory table of an archive: the root directory (path "") first,
then every nested directory in depth-first pre-order. -/
def dirTable (root : List AEnt) : List (String × List AEnt) :=
  ("", root) :: dirTableList "" root

mutual

/-- File table contributed by one entry: every file in the subtree as a
pair of its full path and its contents, in depth-first pre-order. -/
def fileTableEnt : String → AEnt → List (String × List Nat)
  | parent, .file name content => [(joinPath parent name, content)]
  | parent, .dir name children => fileTableList (joinPath parent name) children

/-- File table contributed by a forest of entries. -/
def fileTableList : String → List AEnt → List (String × List Nat)
  | _, [] => []
  | parent, e :: es => fileTableEnt parent e ++ fileTableList parent es

end

/-- Full file table of an archive. -/
def fileTable (root : List AEnt) : List (String × List Nat) :=
  fileTableList "" root

/-- Index of the first pair whose key equals p. -/
def lookupIdx {α : Type} (p : String) : List (String × α) → Option Nat
  | [] => none
  | (q, _) :: t => if q = p then some 0 else (lookupIdx p t).map (· + 1)

/-- Engine-visible record for a tree entry: files carry their length as
size, directories report size 0. -/
def entData : AEnt → FfiDirEntry
  | .file n c => ⟨n, true, false, c.length⟩
  | .dir n _ => ⟨n, false, true, 0⟩

/-- Concrete engine backed by an archive tree.  Directory handles are
indices into dirTable, file handles are offset by the number of
directories.  LookUp honours the allow flags (an entry of the excluded
kind resolves to the sentinel, spec section 4.1) and ReadFromFile clamps
the read at end of file, returning only the bytes that exist. -/
def treeEngine (root : List AEnt) : Engine where
  LookUp := fun p af ad =>
    match (if ad then lookupIdx p (dirTable root) else none) with
    | some i => .ok i
    | none =>
      match (if af then lookupIdx p (fileTable root) else none) with
      | some j => .ok ((dirTable root).length + j)
      | none => .ok ZARCHIVE_INVALID_NODE
  IsFile := fun h =>
    if h < (dirTable root).length then .ok false
    else if h - (dirTable root).length < (fileTable root).length then .ok true
    else .error "invalid handle"
  IsDirectory := fun h =>
    if h < (dirTable root).length then .ok true
    else if h - (dirTable root).length < (fileTable root).length then .ok false
    else .error "invalid handle"
  GetDirEntryCount := fun h =>
    match (dirTable root).get? h with
    | some (_, cs) => .ok cs.length
    | none => .error "invalid handle"
  GetDirEntry := fun h i =>
    match (dirTable root).get? h with
    | some (_, cs) => .ok ((cs.get? i).map entData)
    | none => .error "invalid handle"
  GetFileSize := fun h =>
    if h < (dirTable root).length then .error "not a file"
    else
      match (fileTable root).get? (h - (dirTable root).length) with
      | some (_, c) => .ok c.length
      | none => .error "invalid handle"
  ReadFromFile := fun h offset len =>
    if h < (dirTable root).length then .error "not a file"
    else
      match (fileTable root).get? (h - (dirTable root).length) with
      | some (_, c) => .ok ((c.drop offset).take len)
      | none => .error "invalid handle"
  Pack := fun _ _ => .ok ()

/-- Well-formedness of an archive tree as used by the correctness proofs:
all directory full paths are distinct and the directory table is small
enough that no valid handle collides with the sentinel. -/
def wfA (root : List AEnt) : Prop :=
  ((dirTable root).map Prod.fst).Nodup ∧
    (dirTable root).length < ZARCHIVE_INVALID_NODE

instance (root : List AEnt) : Decidable (wfA root) := by
  unfold wfA; infer_instance

mutual

/-- Specification-level depth-first file listing of one entry: a file
contributes its full path; a directory contributes the listing of its
children under its extended parent path. -/
def specFilesEnt : String → AEnt → List String
  | parent, .file name _ => [joinPath parent name]
  | parent, .dir name children => specFilesList (joinPath parent name) children

/-- Specification-level depth-first file listing of a forest:
parent-before-children, entries in list order. -/
def specFilesList : String → List AEnt → List String
  | _, [] => []
  | parent, e :: es => specFilesEnt parent e ++ specFilesList parent es

end

mutual

/-- Fuel needed by pdeGo to fully process one entry. -/
def needEnt : AEnt → Nat
  | .file _ _ => 0
  | .dir _ children => needList children

/-- Fuel needed by pdeGo to fully process a forest of entries. -/
def needList : List AEnt → Nat
  | [] => 1
  | e :: es => 1 + needEnt e + needList es

end

/-- Host file system model: directory paths, file contents, and a set of
paths on which mutating operations fail with an IO error (the
environment's way of injecting host failures). -/
structure FS where
  dirs : List String
  files : List (String × List Nat)
  ioFail : List String
  deriving Repr, DecidableEq

/-- Path::is_dir. -/
def FS.isDir (fs : FS) (p : String) : Bool := fs.dirs.contains p

/-- Path::is_file. -/
def FS.isFile (fs : FS) (p : String) : Bool := (fs.files.map Prod.fst).contains p

/-- Path::exists. -/
def FS.pathExists (fs : FS) (p : String) : Bool := fs.isDir p || fs.isFile p

/-- Path::parent on slash-separated relative paths: none for the empty
path, the empty path for a single component, otherwise all components but
the last. -/
def parentPath (p : String) : Option String :=
  if p = "" then none
  else
    let cs := splitPath p
    if cs.length = 1 then some ""
    else some (joinComps cs.dropLast)

/-- Path::join for a relative right-hand side. -/
def pathJoin (a b : String) : String := if a = "" then b else a ++ "/" ++ b

/-- All prefixes of a path, innermost last; created by create_dir_all. -/
def ancestors (p : String) : List String :=
  let cs := splitPath p
  (List.range cs.length).map (fun k => joinComps (cs.take (k+1)))

/-- std::fs::remove_file: fails on an injected fault, on a directory, or
on a missing file; otherwise drops the file. -/
def FS.removeFile (fs : FS) (p : String) : Except String FS :=
  if fs.ioFail.contains p || fs.isDir p || !fs.isFile p then
    .error "remove_file failed"
  else .ok { fs with files := fs.files.filter (fun e => e.1 != p) }

/-- std::fs::create_dir_all: fails on an injected fault, otherwise adds
the path and all its ancestors as directories. -/
def FS.createDirAll (fs : FS) (p : String) : Except String FS :=
  if fs.ioFail.contains p then .error "create_dir_all failed"
  else .ok { fs with
    dirs := fs.dirs ++ (ancestors p).filter (fun d => !fs.dirs.contains d) }

/-- std::fs::File::create: fails on an injected fault or a directory,
otherwise truncates the file to empty contents. -/
def FS.fileCreate (fs : FS) (p : String) : Except String FS :=
  if fs.ioFail.contains p || fs.isDir p then .error "File create failed"
  else .ok { fs with files := (p, []) :: fs.files.filter (fun e => e.1 != p) }

/-- File::set_len: truncates or zero-extends the contents to n bytes. -/
def FS.setLen (fs : FS) (p : String) (n : Nat) : Except String FS :=
  if fs.ioFail.contains p then .error "set_len failed"
  else .ok { fs with files := fs.files.map (fun e =>
    if e.1 = p then (p, e.2.take n ++ List.replicate (n - e.2.length) 0) else e) }

/-- BufWriter write_all starting at position zero. -/
def FS.writeAll (fs : FS) (p : String) (buf : List Nat) : Except String FS :=
  if fs.ioFail.contains p then .error "write_all failed"
  else .ok { fs with files := fs.files.map (fun e =>
    if e.1 = p then (p, buf ++ e.2.drop buf.length) else e) }

namespace ZR

/-- Embeds ZArchiveReader::extract_file (reader.rs lines 228-268): the
destination is redirected into an existing directory, the destination's
parent is created, the path is resolved under a write guard (file-only),
the sentinel or a non-file yields MissingFile (IsFile is not consulted
when the handle is the sentinel), and the content is read under one write
guard into a freshly created file; a written count differing from the
size panics. -/
def extract_file (eng : Engine) (fs : FS) (file dest0 : String) :
    POr (Except ZArchiveError Unit) × FS × List Event :=
  let dest := if fs.isDir dest0 then pathJoin dest0 file else dest0
  let step1 : Except ZArchiveError FS × List Event :=
    match parentPath dest with
    | none => (.ok fs, [])
    | some pp =>
      match fs.createDirAll pp with
      | .error e => (.error (.IOError e), [.fsCreateDirAll pp])
      | .ok fs1 => (.ok fs1, [.fsCreateDirAll pp])
  match step1 with
  | (.error e, tr) => (.ok (.error e), fs, tr)
  | (.ok fs1, tr0) =>
    match eng.LookUp file true false with
    | .error e =>
      (.ok (.error (.Other e)), fs1,
        tr0 ++ [.acqW, .eLookUp file true false, .relW])
    | .ok handle =>
      if handle = ZARCHIVE_INVALID_NODE then
        (.ok (.error (.MissingFile file)), fs1,
          tr0 ++ [.acqW, .eLookUp file true false, .relW])
      else
        match eng.IsFile handle with
        | .error e =>
          (.ok (.error (.Other e)), fs1,
            tr0 ++ [.acqW, .eLookUp file true false, .relW,
              .acqR, .eIsFile handle, .relR])
        | .ok b =>
          if !b then
            (.ok (.error (.MissingFile file)), fs1,
              tr0 ++ [.acqW, .eLookUp file true false, .relW,
                .acqR, .eIsFile handle, .relR])
          else
            let tr1 := tr0 ++ [Event.acqW, .eLookUp file true false, .relW,
              .acqR, .eIsFile handle, .relR]
            match eng.GetFileSize handle with
            | .error e =>
              (.ok (.error (.Other e)), fs1,
                tr1 ++ [.acqW, .eGetFileSize handle, .relW])
            | .ok size =>
              match fs1.fileCreate dest with
              | .error e =>
                (.ok (.error (.IOError e)), fs1,
                  tr1 ++ [.acqW, .eGetFileSize handle, .fsFileCreate dest, .relW])
              | .ok fs2 =>
                match fs2.setLen dest size with
                | .error e =>
                  (.ok (.error (.IOError e)), fs2,
                    tr1 ++ [.acqW, .eGetFileSize handle, .fsFileCreate dest,
                      .fsSetLen dest size, .relW])
                | .ok fs3 =>
                  let tr2 := tr1 ++ [Event.acqW, .eGetFileSize handle,
                    .fsFileCreate dest, .fsSetLen dest size,
                    .eReadFromFile handle 0 size, .relW]
                  match eng.ReadFromFile handle 0 size with
                  | .error _ => (.fatal, fs3, tr2)
                  | .ok bytes =>
                    if bytes.length ≠ size then (.fatal, fs3, tr2)
                    else
                      match fs3.writeAll dest bytes with
                      | .error e =>
                        (.ok (.error (.IOError e)), fs3,
                          tr1 ++ [.acqW, .eGetFileSize handle, .fsFileCreate dest,
                            .fsSetLen dest size, .eReadFromFile handle 0 size,
                            .fsWriteAll dest, .relW])
                      | .ok fs4 =>
                        (.ok (.ok ()), fs4,
                          tr1 ++ [.acqW, .eGetFileSize handle, .fsFileCreate dest,
                            .fsSetLen dest size, .eReadFromFile handle 0 size,
                            .fsWriteAll dest, .relW])

/-- Per-file body of the try_for_each closure inside
ZArchiveReader::extract (reader.rs lines 278-284): join the destination,
create the parent directory when missing (panicking if the joined path
has no parent), then extract_file. -/
def extractStep (eng : Engine) (fs : FS) (dest f : String) :
    POr (Except ZArchiveError Unit) × FS × List Event :=
  let d := pathJoin dest f
  match parentPath d with
  | none => (.fatal, fs, [])
  | some pp =>
    if !fs.pathExists pp then
      match fs.createDirAll pp with
      | .error e => (.ok (.error (.IOError e)), fs, [.fsCreateDirAll pp])
      | .ok fs1 =>
        let (r, fs2, tr) := extract_file eng fs1 f d
        (r, fs2, [Event.fsCreateDirAll pp] ++ tr)
    else extract_file eng fs f d

/-- Embeds the try_for_each loop of ZArchiveReader::extract: the first
failing file's error ends the whole batch. -/
def extractLoop (eng : Engine) (dest : String) :
    FS → List String → POr (Except ZArchiveError Unit) × FS × List Event
  | fs, [] => (.ok (.ok ()), fs, [])
  | fs, f :: rest =>
    match extractStep eng fs dest f with
    | (.fatal, fs1, tr) => (.fatal, fs1, tr)
    | (.ok (.error e), fs1, tr) => (.ok (.error e), fs1, tr)
    | (.ok (.ok _), fs1, tr) =>
      let (r, fs2, tr2) := extractLoop eng dest fs1 rest
      (r, fs2, tr ++ tr2)

/-- Embeds ZArchiveReader::extract (reader.rs lines 271-286): an existing
file destination is invalid; the file list comes from get_files, whose
failure panics (unwrap); then each file is extracted in order,
short-circuiting on the first error. -/
def extract (eng : Engine) (fs : FS) (dest : String) (fuel : Nat) :
    POr (Except ZArchiveError Unit) × FS × List Event :=
  if fs.isFile dest then (.ok (.error (.InvalidDestination dest)), fs, [])
  else
    match get_files eng fuel with
    | (.error _, tr) => (.fatal, fs, tr)
    | (.ok files, tr) =>
      let (r, fs1, tr2) := extractLoop eng dest fs files
      (r, fs1, tr ++ tr2)

end ZR

/-- Embeds writer.rs pack (lines 4-27): missing or non-directory input is
rejected before any engine call; an existing output is removed first;
otherwise a missing output parent is created (panicking if the output has
no parent); only then is the engine's single Pack invoked. -/
def pack (eng : Engine) (fs : FS) (input output : String) :
    POr (Except ZArchiveError Unit) × FS × List Event :=
  let doPack := fun (fs1 : FS) (tr : List Event) =>
    match eng.Pack input output with
    | .error e =>
      ((POr.ok (.error (.Other e)) : POr (Except ZArchiveError Unit)), fs1,
        tr ++ [Event.ePack input output])
    | .ok _ => (.ok (.ok ()), fs1, tr ++ [Event.ePack input output])
  if !fs.pathExists input || !fs.isDir input then
    (.ok (.error (.IOError "Input file not found or not a directory")), fs, [])
  else if fs.pathExists output then
    match fs.removeFile output with
    | .error e => (.ok (.error (.IOError e)), fs, [.fsRemoveFile output])
    | .ok fs1 => doPack fs1 [.fsRemoveFile output]
  else
    match parentPath output with
    | none => (.fatal, fs, [])
    | some pp =>
      if !fs.pathExists pp then
        match fs.createDirAll pp with
        | .error e => (.ok (.error (.IOError e)), fs, [.fsCreateDirAll pp])
        | .ok fs1 => doPack fs1 [.fsCreateDirAll pp]
      else doPack fs []

namespace ZL

/-- Embeds lib.rs ZArchiveReader::read_file (lib.rs lines 159-188): the
same logic as the reader.rs version but each engine call runs under its
own RefCell mutable borrow. -/
def read_file (eng : Engine) (file : String) :
    POr (Option (List Nat)) × List Event :=
  match eng.LookUp file true false with
  | .error _ => (.ok none, [.bMut, .eLookUp file true false, .bMutEnd])
  | .ok handle =>
    if handle = ZARCHIVE_INVALID_NODE then
      (.ok none, [.bMut, .eLookUp file true false, .bMutEnd])
    else
      match eng.GetFileSize handle with
      | .error _ =>
        (.ok none, [.bMut, .eLookUp file true false, .bMutEnd,
          .bMut, .eGetFileSize handle, .bMutEnd])
      | .ok size =>
        let tr := [Event.bMut, .eLookUp file true false, .bMutEnd,
          .bMut, .eGetFileSize handle, .bMutEnd,
          .bMut, .eReadFromFile handle 0 size, .bMutEnd]
        match eng.ReadFromFile handle 0 size with
        | .error _ => (.fatal, tr)
        | .ok buffer =>
          if buffer.length ≠ size then (.fatal, tr)
          else (.ok (some buffer), tr)

/-- Embeds lib.rs ZArchiveReader::read_from_file (lib.rs lines 228-265):
same logic as the reader.rs version, per-call mutable borrows. -/
def read_from_file (eng : Engine) (file : String) (offset len : Nat) :
    POr (Option (List Nat)) × List Event :=
  match eng.LookUp file true false with
  | .error _ => (.ok none, [.bMut, .eLookUp file true false, .bMutEnd])
  | .ok handle =>
    if handle = ZARCHIVE_INVALID_NODE then
      (.ok none, [.bMut, .eLookUp file true false, .bMutEnd])
    else
      match eng.GetFileSize handle with
      | .error _ =>
        (.ok none, [.bMut, .eLookUp file true false, .bMutEnd,
          .bMut, .eGetFileSize handle, .bMutEnd])
      | .ok size =>
        if len > size then
          (.ok none, [.bMut, .eLookUp file true false, .bMutEnd,
            .bMut, .eGetFileSize handle, .bMutEnd])
        else
          let tr := [Event.bMut, .eLookUp file true false, .bMutEnd,
            .bMut, .eGetFileSize handle, .bMutEnd,
            .bMut, .eReadFromFile handle offset len, .bMutEnd]
          match eng.ReadFromFile handle offset len with
          | .error _ => (.fatal, tr)
          | .ok buffer =>
            if buffer.length ≠ len then (.fatal, tr)
            else (.ok (some buffer), tr)

/-- Embeds lib.rs ZArchiveReader::extract_file (lib.rs lines 190-226):
same logic as the reader.rs version, with per-call borrows (mutable for
LookUp/GetFileSize/ReadFromFile, shared for IsFile). -/
def extract_file (eng : Engine) (fs : FS) (file dest0 : String) :
    POr (Except ZArchiveError Unit) × FS × List Event :=
  let dest := if fs.isDir dest0 then pathJoin dest0 file else dest0
  let step1 : Except ZArchiveError FS × List Event :=
    match parentPath dest with
    | none => (.ok fs, [])
    | some pp =>
      match fs.createDirAll pp with
      | .error e => (.error (.IOError e), [.fsCreateDirAll pp])
      | .ok fs1 => (.ok fs1, [.fsCreateDirAll pp])
  match step1 with
  | (.error e, tr) => (.ok (.error e), fs, tr)
  | (.ok fs1, tr0) =>
    match eng.LookUp file true false with
    | .error e =>
      (.ok (.error (.Other e)), fs1,
        tr0 ++ [.bMut, .eLookUp file true false, .bMutEnd])
    | .ok handle =>
      if handle = ZARCHIVE_INVALID_NODE then
        (.ok (.error (.MissingFile file)), fs1,
          tr0 ++ [.bMut, .eLookUp file true false, .bMutEnd])
      else
        match eng.IsFile handle with
        | .error e =>
          (.ok (.error (.Other e)), fs1,
            tr0 ++ [.bMut, .eLookUp file true false, .bMutEnd,
              .bShr, .eIsFile handle, .bShrEnd])
        | .ok b =>
          if !b then
            (.ok (.error (.MissingFile file)), fs1,
              tr0 ++ [.bMut, .eLookUp file true false, .bMutEnd,
                .bShr, .eIsFile handle, .bShrEnd])
          else
            let tr1 := tr0 ++ [Event.bMut, .eLookUp file true false, .bMutEnd,
              .bShr, .eIsFile handle, .bShrEnd]
            match eng.GetFileSize handle with
            | .error e =>
              (.ok (.error (.Other e)), fs1,
                tr1 ++ [.bMut, .eGetFileSize handle, .bMutEnd])
            | .ok size =>
              match fs1.fileCreate dest with
              | .error e =>
                (.ok (.error (.IOError e)), fs1,
                  tr1 ++ [.bMut, .eGetFileSize handle, .bMutEnd,
                    .fsFileCreate dest])
              | .ok fs2 =>
                match fs2.setLen dest size with
                | .error e =>
                  (.ok (.error (.IOError e)), fs2,
                    tr1 ++ [.bMut, .eGetFileSize handle, .bMutEnd,
                      .fsFileCreate dest, .fsSetLen dest size])
                | .ok fs3 =>
                  let tr2 := tr1 ++ [Event.bMut, .eGetFileSize handle, .bMutEnd,
                    .fsFileCreate dest, .fsSetLen dest size,
                    .bMut, .eReadFromFile handle 0 size, .bMutEnd]
                  match eng.ReadFromFile handle 0 size with
                  | .error _ => (.fatal, fs3, tr2)
                  | .ok bytes =>
                    if bytes.length ≠ size then (.fatal, fs3, tr2)
                    else
                      match fs3.writeAll dest bytes with
                      | .error e =>
                        (.ok (.error (.IOError e)), fs3,
                          tr1 ++ [.bMut, .eGetFileSize handle, .bMutEnd,
                            .fsFileCreate dest, .fsSetLen dest size,
                            .bMut, .eReadFromFile handle 0 size, .bMutEnd,
                            .fsWriteAll dest])
                      | .ok fs4 =>
                        (.ok (.ok ()), fs4,
                          tr1 ++ [.bMut, .eGetFileSize handle, .bMutEnd,
                            .fsFileCreate dest, .fsSetLen dest size,
                            .bMut, .eReadFromFile handle 0 size, .bMutEnd,
                            .fsWriteAll dest])

/-- Embeds the loop body of process_dir_entry inside lib.rs get_files
(lib.rs lines 268-298): identical control flow to the reader.rs version,
with shared borrows for GetDirEntryCount/GetDirEntry and a mutable borrow
for LookUp. -/
def pdeGo (eng : Engine) :
    Nat → Nat → String → Nat → Nat → List String →
    Except ZArchiveError (List String) × List Event
  | 0, _, _, _, _, _ => (.error (.Other "fuel exhausted"), [])
  | fuel+1, node_handle, parent, count, i, files =>
    if i < count then
      match eng.GetDirEntry node_handle i with
      | .error e =>
        (.error (.Other e), [.bShr, .eGetDirEntry node_handle i, .bShrEnd])
      | .ok none =>
        let (r, tr) := pdeGo eng fuel node_handle parent count (i+1) files
        (r, [Event.bShr, .eGetDirEntry node_handle i, .bShrEnd] ++ tr)
      | .ok (some de) =>
        let full_path := if parent ≠ "" then parent ++ "/" ++ de.name else de.name
        if de.isFile then
          let (r, tr) :=
            pdeGo eng fuel node_handle parent count (i+1) (files ++ [full_path])
          (r, [Event.bShr, .eGetDirEntry node_handle i, .bShrEnd] ++ tr)
        else if de.isDirectory then
          match eng.LookUp full_path false true with
          | .error e =>
            (.error (.Other e), [.bShr, .eGetDirEntry node_handle i, .bShrEnd,
              .bMut, .eLookUp full_path false true, .bMutEnd])
          | .ok next =>
            if next ≠ ZARCHIVE_INVALID_NODE then
              match eng.GetDirEntryCount next with
              | .error e =>
                (.error (.Other e), [.bShr, .eGetDirEntry node_handle i, .bShrEnd,
                  .bMut, .eLookUp full_path false true, .bMutEnd,
                  .bShr, .eGetDirEntryCount next, .bShrEnd])
              | .ok cnt =>
                let pre := [Event.bShr, .eGetDirEntry node_handle i, .bShrEnd,
                  .bMut, .eLookUp full_path false true, .bMutEnd,
                  .bShr, .eGetDirEntryCount next, .bShrEnd]
                match pdeGo eng fuel next full_path cnt 0 files with
                | (.error e, tr1) => (.error e, pre ++ tr1)
                | (.ok files1, tr1) =>
                  let (r, tr2) :=
                    pdeGo eng fuel node_handle parent count (i+1) files1
                  (r, pre ++ tr1 ++ tr2)
            else
              let (r, tr) := pdeGo eng fuel node_handle parent count (i+1) files
              (r, [Event.bShr, .eGetDirEntry node_handle i, .bShrEnd,
                .bMut, .eLookUp full_path false true, .bMutEnd] ++ tr)
        else
          let (r, tr) := pdeGo eng fuel node_handle parent count (i+1) files
          (r, [Event.bShr, .eGetDirEntry node_handle i, .bShrEnd] ++ tr)
    else (.ok files, [])

/-- Embeds lib.rs ZArchiveReader::get_files (lib.rs lines 267-307). -/
def get_files (eng : Engine) (fuel : Nat) :
    Except ZArchiveError (List String) × List Event :=
  match eng.LookUp "" false true with
  | .error e => (.error (.Other e), [.bMut, .eLookUp "" false true, .bMutEnd])
  | .ok root =>
    if root = ZARCHIVE_INVALID_NODE then
      (.ok [], [.bMut, .eLookUp "" false true, .bMutEnd])
    else
      match eng.GetDirEntryCount root with
      | .error e =>
        (.error (.Other e), [.bMut, .eLookUp "" false true, .bMutEnd,
          .bShr, .eGetDirEntryCount root, .bShrEnd])
      | .ok count =>
        let (r, tr) := pdeGo eng fuel root "" count 0 []
        (r, [Event.bMut, .eLookUp "" false true, .bMutEnd,
          .bShr, .eGetDirEntryCount root, .bShrEnd] ++ tr)

/-- Embeds lib.rs ZArchiveReader::iter (lib.rs lines 309-316). -/
def iter (eng : Engine) : Except ZArchiveError DirIter × List Event :=
  match eng.LookUp "" false true with
  | .error e => (.error (.Other e), [.bMut, .eLookUp "" false true, .bMutEnd])
  | .ok root =>
    if root = ZARCHIVE_INVALID_NODE then
      (.error (.MissingFile "archive root"),
        [.bMut, .eLookUp "" false true, .bMutEnd])
    else
      (.ok (DirIter.new root []), [.bMut, .eLookUp "" false true, .bMutEnd])

/-- Embeds lib.rs ZArchiveReader::iter_dir (lib.rs lines 318-342). -/
def iter_dir (eng : Engine) (dir : DirEntry) :
    Except ZArchiveError DirIter × List Event :=
  match eng.LookUp dir.full_path false true with
  | .error e =>
    (.error (.Other e), [.bMut, .eLookUp dir.full_path false true, .bMutEnd])
  | .ok node_handle =>
    if node_handle = ZARCHIVE_INVALID_NODE then
      (.error (.MissingFile dir.full_path),
        [.bMut, .eLookUp dir.full_path false true, .bMutEnd])
    else if ¬ dir.is_dir then
      (.error (.NotADirectory dir.full_path),
        [.bMut, .eLookUp dir.full_path false true, .bMutEnd])
    else
      (.ok (DirIter.new node_handle (dir.parent ++ [dir.name])),
        [.bMut, .eLookUp dir.full_path false true, .bMutEnd])

/-- Embeds lib.rs ZArchiveReader::count_dir_entries (lib.rs lines
344-361): two separate mutable borrows, one per engine call. -/
def count_dir_entries (eng : Engine) (dir : DirEntry) :
    Except ZArchiveError Nat × List Event :=
  match eng.LookUp dir.full_path false true with
  | .error e =>
    (.error (.Other e), [.bMut, .eLookUp dir.full_path false true, .bMutEnd])
  | .ok node_handle =>
    if node_handle = ZARCHIVE_INVALID_NODE then
      (.error (.MissingFile dir.full_path),
        [.bMut, .eLookUp dir.full_path false true, .bMutEnd])
    else if ¬ dir.is_dir then
      (.error (.NotADirectory dir.full_path),
        [.bMut, .eLookUp dir.full_path false true, .bMutEnd])
    else
      match eng.GetDirEntryCount node_handle with
      | .error e =>
        (.error (.Other e), [.bMut, .eLookUp dir.full_path false true, .bMutEnd,
          .bMut, .eGetDirEntryCount node_handle, .bMutEnd])
      | .ok n =>
        (.ok n, [.bMut, .eLookUp dir.full_path false true, .bMutEnd,
          .bMut, .eGetDirEntryCount node_handle, .bMutEnd])

/-- Embeds Iterator::next for the lib.rs ArchiveDirIterator (lib.rs lines
114-136): identical logic to the reader.rs version under shared
borrows. -/
def iterNext (eng : Engine) (it : DirIter) :
    Option DirEntry × DirIter × List Event :=
  let fetch :=
    if ¬ it.started then
      match eng.GetDirEntryCount it.handle with
      | .error _ => none
      | .ok c => some ({ it with count := c },
          [Event.bShr, .eGetDirEntryCount it.handle, .bShrEnd])
    else some (it, [])
  match fetch with
  | none => (none, it, [.bShr, .eGetDirEntryCount it.handle, .bShrEnd])
  | some (it1, tr0) =>
    if it1.index ≥ it1.count then (none, it1, tr0)
    else
      match eng.GetDirEntry it1.handle it1.index with
      | .error _ =>
        (none, it1, tr0 ++ [.bShr, .eGetDirEntry it1.handle it1.index, .bShrEnd])
      | .ok none =>
        (none, it1, tr0 ++ [.bShr, .eGetDirEntry it1.handle it1.index, .bShrEnd])
      | .ok (some de) =>
        (some ⟨de, it1.parent⟩,
          { it1 with index := it1.index + 1, entry := de },
          tr0 ++ [.bShr, .eGetDirEntry it1.handle it1.index, .bShrEnd])

/-- Embeds lib.rs ZArchiveReader::new (lib.rs lines 151-157): a single
OpenFromFile call whose failure surfaces as the Other error. -/
def new (r : Except String Unit) (path : String) :
    Except ZArchiveError Unit × List Event :=
  match r with
  | .error e => (.error (.Other e), [.eOpenFromFile path])
  | .ok _ => (.ok (), [.eOpenFromFile path])

end ZL

/-- Embeds ZArchiveReader::open (reader.rs lines 175-181): a single
OpenFromFile call whose failure surfaces as the Other error. -/
def ZR.openA (r : Except String Unit) (path : String) :
    Except ZArchiveError Unit × List Event :=
  match r with
  | .error e => (.error (.Other e), [.eOpenFromFile path])
  | .ok _ => (.ok (), [.eOpenFromFile path])

/-- Engine that resolves every path to handle 1, reports size 10, but
always writes only three bytes: its ReadFromFile answer never matches a
request of a different length. -/
def mismatchEngine : Engine where
  LookUp := fun _ _ _ => .ok 1
  IsFile := fun _ => .ok true
  IsDirectory := fun _ => .ok false
  GetDirEntryCount := fun _ => .error "not a dir"
  GetDirEntry := fun _ _ => .error "not a dir"
  GetFileSize := fun _ => .ok 10
  ReadFromFile := fun _ _ _ => .ok [9, 9, 9]
  Pack := fun _ _ => .ok ()

/-- Archive with a single ten-byte file "a", used for boundary checks. -/
def demoArch : List AEnt := [.file "a" [0, 1, 2, 3, 4, 5, 6, 7, 8, 9]]

/-- Archive with an empty directory "d" and a one-byte file "f". -/
def dirFileArch : List AEnt := [.dir "d" [], .file "f" [1]]

/-- Engine in which every path lookup resolves to the sentinel and every
other primitive raises. -/
def allInvalidEngine : Engine where
  LookUp := fun _ _ _ => .ok ZARCHIVE_INVALID_NODE
  IsFile := fun _ => .error "invalid node"
  IsDirectory := fun _ => .error "invalid node"
  GetDirEntryCount := fun _ => .error "invalid node"
  GetDirEntry := fun _ _ => .error "invalid node"
  GetFileSize := fun _ => .error "invalid node"
  ReadFromFile := fun _ _ _ => .error "invalid node"
  Pack := fun _ _ => .ok ()

/-- Engine whose lookups resolve to the sentinel while GetFileSize
happily answers 42 for any handle, exposing layers that forward the
sentinel instead of checking it. -/
def sentinelProbeEngine : Engine where
  LookUp := fun _ _ _ => .ok ZARCHIVE_INVALID_NODE
  IsFile := fun _ => .error "invalid node"
  IsDirectory := fun _ => .error "invalid node"
  GetDirEntryCount := fun _ => .error "invalid node"
  GetDirEntry := fun _ _ => .error "invalid node"
  GetFileSize := fun _ => .ok 42
  ReadFromFile := fun _ _ _ => .error "invalid node"
  Pack := fun _ _ => .ok ()

/-- A DirEntry as produced for the file "f" of dirFileArch. -/
def fileEntryF : DirEntry := ⟨⟨"f", true, false, 1⟩, []⟩

/-- A stale DirEntry whose kind flags claim "not a directory" although
the path "d" resolves as a directory. -/
def staleEntryD : DirEntry := ⟨⟨"d", false, false, 0⟩, []⟩

/-- A DirEntry as produced for the directory "d" of dirFileArch. -/
def dirEntryD : DirEntry := ⟨⟨"d", false, true, 0⟩, []⟩

/-- C1: on the ten-byte file "a", the request offset 5, length 6 has
offset + length > size but length <= size; the claim (and spec sections
4.4 and 8) requires the None range-error outcome, yet read_from_file
passes its length-only validation, issues the engine read, and panics on
the short result.  file_size confirms the file's size is 10. -/
theorem C1_out_of_range_read_panics :
    (ZR.file_size (treeEngine demoArch) "a").1 = some 10 ∧
    5 + 6 > 10 ∧ 6 ≤ 10 ∧
    (ZR.read_from_file (treeEngine demoArch) "a" 5 6).1 = POr.fatal := by
  decide

/-- C2 counterexample: when the root lookup yields the sentinel,
get_files does not return a not-found error; it returns a successful
empty listing, contradicting the claim that both iter and get_files
surface not-found. -/
theorem C2_root_counterexample :
    (ZR.get_files allInvalidEngine 1).1 = .ok [] := by decide

/-- C2 amended: with an unresolvable root, iter returns the MissingFile
error but get_files returns an empty successful listing; neither
panics. -/
theorem C2_missing_root (eng : Engine) (fuel : Nat)
    (h : eng.LookUp "" false true = .ok ZARCHIVE_INVALID_NODE) :
    (ZR.iter eng).1 = .error (.MissingFile "archive root") ∧
    (ZR.get_files eng fuel).1 = .ok [] := by
  unfold ZR.iter ZR.get_files
  rw [h]
  simp

/-- C2 witness: the amended behaviour at the concrete engine whose
lookups all yield the sentinel. -/
theorem C2_missing_root_witness :
    (ZR.iter allInvalidEngine).1 = .error (.MissingFile "archive root") ∧
    (ZR.get_files allInvalidEngine 1).1 = .ok [] :=
  C2_missing_root allInvalidEngine 1 rfl

/-- C3 counterexample: file_size performs no sentinel check, so with an
engine that resolves nothing it still passes the raw sentinel handle to
GetFileSize — a subsequent engine primitive — and even surfaces that
call's answer as a success. -/
theorem C3_sentinel_counterexample :
    (ZR.file_size sentinelProbeEngine "f").1 = some 42 ∧
    engineCalls (ZR.file_size sentinelProbeEngine "f").2 =
      [.eLookUp "f" true false, .eGetFileSize ZARCHIVE_INVALID_NODE] := by
  decide

/-- C3 amended: read_file, read_from_file, extract_file, iter, iter_dir
and count_dir_entries all convert the sentinel into a not-found outcome
with no further engine call (their engine-call trace is exactly the one
LookUp); file_size alone forwards the raw sentinel handle to
GetFileSize. -/
theorem C3_sentinel_translation (eng : Engine) (fs : FS)
    (file dest : String) (off len : Nat) (d : DirEntry)
    (h : ∀ p af ad, eng.LookUp p af ad = .ok ZARCHIVE_INVALID_NODE)
    (hfs : fs.ioFail = []) :
    (ZR.read_file eng file).1 = .ok none ∧
    engineCalls (ZR.read_file eng file).2 = [.eLookUp file true false] ∧
    (ZR.read_from_file eng file off len).1 = .ok none ∧
    engineCalls (ZR.read_from_file eng file off len).2 =
      [.eLookUp file true false] ∧
    (ZR.extract_file eng fs file dest).1 = .ok (.error (.MissingFile file)) ∧
    engineCalls (ZR.extract_file eng fs file dest).2.2 =
      [.eLookUp file true false] ∧
    (ZR.iter eng).1 = .error (.MissingFile "archive root") ∧
    engineCalls (ZR.iter eng).2 = [.eLookUp "" false true] ∧
    (ZR.iter_dir eng d).1 = .ok (.error (.MissingFile d.full_path)) ∧
    engineCalls (ZR.iter_dir eng d).2 = [.eLookUp d.full_path false true] ∧
    (ZR.count_dir_entries eng d).1 = .error (.MissingFile d.full_path) ∧
    engineCalls (ZR.count_dir_entries eng d).2 =
      [.eLookUp d.full_path false true] ∧
    engineCalls (ZR.file_size eng file).2 =
      [.eLookUp file true false, .eGetFileSize ZARCHIVE_INVALID_NODE] := by
  have hef : (ZR.extract_file eng fs file dest).1 =
        .ok (.error (.MissingFile file)) ∧
      engineCalls (ZR.extract_file eng fs file dest).2.2 =
        [.eLookUp file true false] := by
    unfold ZR.extract_file
    simp only [h]
    cases hpp : parentPath (if fs.isDir dest then pathJoin dest file else dest) with
    | none => simp [engineCalls, Event.isEngineCall]
    | some pp => simp [FS.createDirAll, hfs, engineCalls, Event.isEngineCall]
  have hfsz : engineCalls (ZR.file_size eng file).2 =
      [.eLookUp file true false, .eGetFileSize ZARCHIVE_INVALID_NODE] := by
    unfold ZR.file_size
    simp only [h]
    cases eng.GetFileSize ZARCHIVE_INVALID_NODE <;>
      simp [engineCalls, Event.isEngineCall]
  refine ⟨?_, ?_, ?_, ?_, hef.1, hef.2, ?_, ?_, ?_, ?_, ?_, ?_, hfsz⟩ <;>
    simp [ZR.read_file, ZR.read_from_file, ZR.iter, ZR.iter_dir,
      ZR.count_dir_entries, h, engineCalls, Event.isEngineCall]

/-- C3 witness: the amended behaviour at the all-sentinel engine with an
empty file system and the concrete entry staleEntryD. -/
theorem C3_sentinel_translation_witness :
    (ZR.read_file allInvalidEngine "x").1 = .ok none ∧
    engineCalls (ZR.read_file allInvalidEngine "x").2 =
      [.eLookUp "x" true false] ∧
    (ZR.read_from_file allInvalidEngine "x" 0 4).1 = .ok none ∧
    engineCalls (ZR.read_from_file allInvalidEngine "x" 0 4).2 =
      [.eLookUp "x" true false] ∧
    (ZR.extract_file allInvalidEngine ⟨[], [], []⟩ "x" "y").1 =
      .ok (.error (.MissingFile "x")) ∧
    engineCalls (ZR.extract_file allInvalidEngine ⟨[], [], []⟩ "x" "y").2.2 =
      [.eLookUp "x" true false] ∧
    (ZR.iter allInvalidEngine).1 = .error (.MissingFile "archive root") ∧
    engineCalls (ZR.iter allInvalidEngine).2 = [.eLookUp "" false true] ∧
    (ZR.iter_dir allInvalidEngine staleEntryD).1 =
      .ok (.error (.MissingFile staleEntryD.full_path)) ∧
    engineCalls (ZR.iter_dir allInvalidEngine staleEntryD).2 =
      [.eLookUp staleEntryD.full_path false true] ∧
    (ZR.count_dir_entries allInvalidEngine staleEntryD).1 =
      .error (.MissingFile staleEntryD.full_path) ∧
    engineCalls (ZR.count_dir_entries allInvalidEngine staleEntryD).2 =
      [.eLookUp staleEntryD.full_path false true] ∧
    engineCalls (ZR.file_size allInvalidEngine "x").2 =
      [.eLookUp "x" true false, .eGetFileSize ZARCHIVE_INVALID_NODE] :=
  C3_sentinel_translation allInvalidEngine ⟨[], [], []⟩ "x" "y" 0 4
    staleEntryD (fun _ _ _ => rfl) rfl

/-- C6 counterexample: on an archive whose entry "f" is a file, both
iter_dir and count_dir_entries report MissingFile — not NotADirectory as
the claim requires — because the directory-only lookup resolves a file
path to the sentinel. -/
theorem C6_wrong_kind_counterexample :
    (ZR.count_dir_entries (treeEngine dirFileArch) fileEntryF).1 =
      .error (.MissingFile "f") ∧
    (ZR.iter_dir (treeEngine dirFileArch) fileEntryF).1 =
      .ok (.error (.MissingFile "f")) ∧
    (ZR.count_dir_entries (treeEngine dirFileArch) fileEntryF).1 ≠
      .error (.NotADirectory "f") := by decide

/-- C6 amended: a path that exists in the archive only as a file is
excluded by the directory-only lookup and therefore surfaces MissingFile
(as does an absent path); NotADirectory is returned exactly when the path
resolves as a directory but the entry's kind flag denies being one. -/
theorem C6_error_kinds (eng : Engine) (d1 d2 : DirEntry) (h2v : Nat)
    (h1 : eng.LookUp d1.full_path false true = .ok ZARCHIVE_INVALID_NODE)
    (h2 : eng.LookUp d2.full_path false true = .ok h2v)
    (h2ne : h2v ≠ ZARCHIVE_INVALID_NODE)
    (h2d : d2.is_dir = false) :
    (ZR.count_dir_entries eng d1).1 = .error (.MissingFile d1.full_path) ∧
    (ZR.iter_dir eng d1).1 = .ok (.error (.MissingFile d1.full_path)) ∧
    (ZR.count_dir_entries eng d2).1 = .error (.NotADirectory d2.full_path) ∧
    (ZR.iter_dir eng d2).1 = .ok (.error (.NotADirectory d2.full_path)) := by
  unfold ZR.count_dir_entries ZR.iter_dir
  rw [h1, h2]
  simp [h2ne, h2d]

/-- C6 witness: the amended behaviour at the concrete tree engine, with
the genuine file entry "f" and the stale entry for directory "d". -/
theorem C6_error_kinds_witness :
    (ZR.count_dir_entries (treeEngine dirFileArch) fileEntryF).1 =
      .error (.MissingFile fileEntryF.full_path) ∧
    (ZR.iter_dir (treeEngine dirFileArch) fileEntryF).1 =
      .ok (.error (.MissingFile fileEntryF.full_path)) ∧
    (ZR.count_dir_entries (treeEngine dirFileArch) staleEntryD).1 =
      .error (.NotADirectory staleEntryD.full_path) ∧
    (ZR.iter_dir (treeEngine dirFileArch) staleEntryD).1 =
      .ok (.error (.NotADirectory staleEntryD.full_path)) :=
  C6_error_kinds (treeEngine dirFileArch) fileEntryF staleEntryD 1
    (by decide) (by decide) (by decide) (by decide)

/-- The exclusive guard is taken once at the start of the operation and
released once at its end, with every event in between an engine call:
the lock is held across the whole logical operation. -/
def heldWholeOp (tr : List Event) : Prop :=
  ∃ mid, tr = Event.acqW :: (mid ++ [Event.relW]) ∧
    ∀ e ∈ mid, e.isEngineCall = true

/-- C7 counterexample: concrete traces of count_dir_entries and
read_from_file each show a single exclusive section enclosing two or
three engine calls (resolve, size or count query, read), contradicting
the claim that exclusive access is held for the duration of one engine
call only. -/
theorem C7_lock_scope_counterexample :
    (ZR.count_dir_entries (treeEngine dirFileArch) dirEntryD).2 =
      [.acqW, .eLookUp "d" false true, .eGetDirEntryCount 1, .relW] ∧
    (ZR.read_from_file (treeEngine demoArch) "a" 0 4).2 =
      [.acqW, .eLookUp "a" true false, .eGetFileSize 1,
        .eReadFromFile 1 0 4, .relW] := by decide

/-- C7 amended: file_size, read_file, read_from_file and
count_dir_entries each acquire the exclusive lock once and hold it
across every engine call of the whole logical operation. -/
theorem C7_whole_op_guard (eng : Engine) (file : String) (off len : Nat)
    (d : DirEntry) :
    heldWholeOp (ZR.file_size eng file).2 ∧
    heldWholeOp (ZR.read_file eng file).2 ∧
    heldWholeOp (ZR.read_from_file eng file off len).2 ∧
    heldWholeOp (ZR.count_dir_entries eng d).2 := by
  refine ⟨?_, ?_, ?_, ?_⟩
  · cases h1 : eng.LookUp file true false with
    | error e =>
      exact ⟨[.eLookUp file true false], by simp [ZR.file_size, h1],
        by simp [Event.isEngineCall]⟩
    | ok hdl =>
      cases h2 : eng.GetFileSize hdl with
      | error e =>
        exact ⟨[.eLookUp file true false, .eGetFileSize hdl],
          by simp [ZR.file_size, h1, h2], by simp [Event.isEngineCall]⟩
      | ok s =>
        exact ⟨[.eLookUp file true false, .eGetFileSize hdl],
          by simp [ZR.file_size, h1, h2], by simp [Event.isEngineCall]⟩
  · cases h1 : eng.LookUp file true false with
    | error e =>
      exact ⟨[.eLookUp file true false], by simp [ZR.read_file, h1],
        by simp [Event.isEngineCall]⟩
    | ok hdl =>
      by_cases h2 : hdl = ZARCHIVE_INVALID_NODE
      · exact ⟨[.eLookUp file true false], by simp [ZR.read_file, h1, h2],
          by simp [Event.isEngineCall]⟩
      · cases h3 : eng.GetFileSize hdl with
        | error e =>
          exact ⟨[.eLookUp file true false, .eGetFileSize hdl],
            by simp [ZR.read_file, h1, h2, h3], by simp [Event.isEngineCall]⟩
        | ok size =>
          cases h4 : eng.ReadFromFile hdl 0 size with
          | error e =>
            exact ⟨[.eLookUp file true false, .eGetFileSize hdl,
              .eReadFromFile hdl 0 size],
              by simp [ZR.read_file, h1, h2, h3, h4], by simp [Event.isEngineCall]⟩
          | ok buf =>
            refine ⟨[.eLookUp file true false, .eGetFileSize hdl,
              .eReadFromFile hdl 0 size], ?_, by simp [Event.isEngineCall]⟩
            simp only [ZR.read_file, h1, h2, h3, h4]
            split <;> simp_all
            all_goals split <;> rfl
  · cases h1 : eng.LookUp file true false with
    | error e =>
      exact ⟨[.eLookUp file true false], by simp [ZR.read_from_file, h1],
        by simp [Event.isEngineCall]⟩
    | ok hdl =>
      by_cases h2 : hdl = ZARCHIVE_INVALID_NODE
      · exact ⟨[.eLookUp file true false], by simp [ZR.read_from_file, h1, h2],
          by simp [Event.isEngineCall]⟩
      · cases h3 : eng.GetFileSize hdl with
        | error e =>
          exact ⟨[.eLookUp file true false, .eGetFileSize hdl],
            by simp [ZR.read_from_file, h1, h2, h3], by simp [Event.isEngineCall]⟩
        | ok size =>
          by_cases h6 : len > size
          · exact ⟨[.eLookUp file true false, .eGetFileSize hdl],
              by simp [ZR.read_from_file, h1, h2, h3, h6],
              by simp [Event.isEngineCall]⟩
          · cases h4 : eng.ReadFromFile hdl off len with
            | error e =>
              exact ⟨[.eLookUp file true false, .eGetFileSize hdl,
                .eReadFromFile hdl off len],
                by simp [ZR.read_from_file, h1, h2, h3, h4, h6],
                by simp [Event.isEngineCall]⟩
            | ok buf =>
              refine ⟨[.eLookUp file true false, .eGetFileSize hdl,
                .eReadFromFile hdl off len], ?_, by simp [Event.isEngineCall]⟩
              simp only [ZR.read_from_file, h1, h2, h3, h4, h6]
              split <;> simp_all
              all_goals split <;> rfl
  · cases h1 : eng.LookUp d.full_path false true with
    | error e =>
      exact ⟨[.eLookUp d.full_path false true],
        by simp [ZR.count_dir_entries, h1], by simp [Event.isEngineCall]⟩
    | ok hdl =>
      by_cases h2 : hdl = ZARCHIVE_INVALID_NODE
      · exact ⟨[.eLookUp d.full_path false true],
          by simp [ZR.count_dir_entries, h1, h2], by simp [Event.isEngineCall]⟩
      · by_cases h3 : d.is_dir
        · cases h4 : eng.GetDirEntryCount hdl with
          | error e =>
            exact ⟨[.eLookUp d.full_path false true, .eGetDirEntryCount hdl],
              by simp [ZR.count_dir_entries, h1, h2, h3, h4],
              by simp [Event.isEngineCall]⟩
          | ok n =>
            exact ⟨[.eLookUp d.full_path false true, .eGetDirEntryCount hdl],
              by simp [ZR.count_dir_entries, h1, h2, h3, h4],
              by simp [Event.isEngineCall]⟩
        · exact ⟨[.eLookUp d.full_path false true],
            by simp [ZR.count_dir_entries, h1, h2, h3],
            by simp [Event.isEngineCall]⟩

/-- C4: a written count differing from the requested length makes
read_file, read_from_file and extract_file panic instead of returning
data; consequently a buffer returned by read_file has the file's reported
size and a buffer returned by read_from_file has exactly the requested
length. -/
theorem C4_written_count_integrity (eng : Engine) (fs fs1 fs2 fs3 : FS)
    (f1 dest pp : String) (off len : Nat)
    (hdl size : Nat) (bytes bytes2 : List Nat)
    (hl : eng.LookUp f1 true false = .ok hdl)
    (hne : hdl ≠ ZARCHIVE_INVALID_NODE)
    (hs : eng.GetFileSize hdl = .ok size)
    (hr : eng.ReadFromFile hdl 0 size = .ok bytes)
    (hmm : bytes.length ≠ size)
    (hr2 : eng.ReadFromFile hdl off len = .ok bytes2)
    (hmm2 : bytes2.length ≠ len)
    (hlen : len ≤ size)
    (hif : eng.IsFile hdl = .ok true)
    (hdd : fs.isDir dest = false)
    (hpp : parentPath dest = some pp)
    (hcda : fs.createDirAll pp = .ok fs1)
    (hfc : fs1.fileCreate dest = .ok fs2)
    (hsl : fs2.setLen dest size = .ok fs3) :
    (ZR.read_file eng f1).1 = POr.fatal ∧
    (ZR.read_from_file eng f1 off len).1 = POr.fatal ∧
    (ZR.extract_file eng fs f1 dest).1 = POr.fatal ∧
    (∀ f buf, (ZR.read_file eng f).1 = .ok (some buf) →
      ∃ hh ss, eng.LookUp f true false = .ok hh ∧
        eng.GetFileSize hh = .ok ss ∧ buf.length = ss) ∧
    (∀ f o l buf, (ZR.read_from_file eng f o l).1 = .ok (some buf) →
      buf.length = l) := by
  refine ⟨?_, ?_, ?_, ?_, ?_⟩
  · simp [ZR.read_file, hl, hne, hs, hr, hmm]
  · simp [ZR.read_from_file, hl, hne, hs, hr2, hmm2, Nat.not_lt.mpr hlen]
  · simp [ZR.extract_file, hdd, hpp, hcda, hfc, hsl, hl, hne, hif, hs, hr, hmm]
  · intro f buf hbuf
    cases hL : eng.LookUp f true false with
    | error e => simp [ZR.read_file, hL] at hbuf
    | ok hh =>
      by_cases hinv : hh = ZARCHIVE_INVALID_NODE
      · simp [ZR.read_file, hL, hinv] at hbuf
      · cases hG : eng.GetFileSize hh with
        | error e => simp [ZR.read_file, hL, hinv, hG] at hbuf
        | ok ss =>
          cases hR : eng.ReadFromFile hh 0 ss with
          | error e => simp [ZR.read_file, hL, hinv, hG, hR] at hbuf
          | ok bb =>
            by_cases hbl : bb.length = ss
            · simp [ZR.read_file, hL, hinv, hG, hR, hbl] at hbuf
              refine ⟨hh, ss, rfl, hG, ?_⟩
              exact hbuf ▸ hbl
            · simp [ZR.read_file, hL, hinv, hG, hR, hbl] at hbuf
  · intro f o l buf hbuf
    cases hL : eng.LookUp f true false with
    | error e => simp [ZR.read_from_file, hL] at hbuf
    | ok hh =>
      by_cases hinv : hh = ZARCHIVE_INVALID_NODE
      · simp [ZR.read_from_file, hL, hinv] at hbuf
      · cases hG : eng.GetFileSize hh with
        | error e => simp [ZR.read_from_file, hL, hinv, hG] at hbuf
        | ok ss =>
          by_cases hgt : l > ss
          · simp [ZR.read_from_file, hL, hinv, hG, hgt] at hbuf
          · cases hR : eng.ReadFromFile hh o l with
            | error e => simp [ZR.read_from_file, hL, hinv, hG, hgt, hR] at hbuf
            | ok bb =>
              by_cases hbl : bb.length = l
              · simp [ZR.read_from_file, hL, hinv, hG, hgt, hR, hbl] at hbuf
                exact hbuf ▸ hbl
              · simp [ZR.read_from_file, hL, hinv, hG, hgt, hR, hbl] at hbuf

/-- C4 witness: the three panic outcomes at the concrete mismatch
engine. -/
theorem C4_written_count_integrity_witness :
    (ZR.read_file mismatchEngine "x").1 = POr.fatal ∧
    (ZR.read_from_file mismatchEngine "x" 3 4).1 = POr.fatal ∧
    (ZR.extract_file mismatchEngine ⟨[], [], []⟩ "x" "out/f1").1 = POr.fatal := by
  have h := C4_written_count_integrity mismatchEngine ⟨[], [], []⟩
    ⟨["out"], [], []⟩ ⟨["out"], [("out/f1", [])], []⟩
    ⟨["out"], [("out/f1", List.replicate 10 0)], []⟩
    "x" "out/f1" "out" 3 4 1 10 [9, 9, 9] [9, 9, 9]
    rfl (by decide) rfl rfl (by decide) rfl (by decide) (by decide) rfl
    (by decide) (by decide) (by decide) (by decide) (by decide)
  exact ⟨h.1, h.2.1, h.2.2.1⟩

/-- C8: pack rejects a missing or non-directory input before any engine
call; with a valid input it removes an existing output before the single
engine Pack, creates a missing output parent before the Pack, and
otherwise proceeds directly to the Pack. -/
theorem C8_pack_contract (eng : Engine) (fs fs1 fs2 : FS)
    (i1 o1 i2 o2 i3 o3 i4 o4 p3 p4 : String)
    (h1 : (!fs.pathExists i1 || !fs.isDir i1) = true)
    (h2a : fs.pathExists i2 = true) (h2b : fs.isDir i2 = true)
    (h2c : fs.pathExists o2 = true)
    (h2d : fs.removeFile o2 = .ok fs1)
    (h3a : fs.pathExists i3 = true) (h3b : fs.isDir i3 = true)
    (h3c : fs.pathExists o3 = false)
    (h3d : parentPath o3 = some p3)
    (h3e : fs.pathExists p3 = false)
    (h3f : fs.createDirAll p3 = .ok fs2)
    (h4a : fs.pathExists i4 = true) (h4b : fs.isDir i4 = true)
    (h4c : fs.pathExists o4 = false)
    (h4d : parentPath o4 = some p4)
    (h4e : fs.pathExists p4 = true) :
    (pack eng fs i1 o1).1 =
      .ok (.error (.IOError "Input file not found or not a directory")) ∧
    (pack eng fs i1 o1).2.2 = [] ∧
    (pack eng fs i2 o2).2.2 = [.fsRemoveFile o2, .ePack i2 o2] ∧
    (pack eng fs i3 o3).2.2 = [.fsCreateDirAll p3, .ePack i3 o3] ∧
    (pack eng fs i4 o4).2.2 = [.ePack i4 o4] := by
  refine ⟨?_, ?_, ?_, ?_, ?_⟩
  · simp [pack, h1]
  · simp [pack, h1]
  · cases hp : eng.Pack i2 o2 <;>
      simp [pack, h2a, h2b, h2c, h2d, hp]
  · cases hp : eng.Pack i3 o3 <;>
      simp [pack, h3a, h3b, h3c, h3d, h3e, h3f, hp]
  · cases hp : eng.Pack i4 o4 <;>
      simp [pack, h4a, h4b, h4c, h4d, h4e, hp]

/-- C8 witness: the pack contract at a concrete file system with a source
directory, a missing input, an existing output file, a fresh output in a
missing directory, and a fresh output in an existing directory. -/
theorem C8_pack_contract_witness :
    (pack (treeEngine demoArch) ⟨["src", "out"], [("outfile", [])], []⟩
      "nosuch" "o").1 =
      .ok (.error (.IOError "Input file not found or not a directory")) ∧
    (pack (treeEngine demoArch) ⟨["src", "out"], [("outfile", [])], []⟩
      "nosuch" "o").2.2 = [] ∧
    (pack (treeEngine demoArch) ⟨["src", "out"], [("outfile", [])], []⟩
      "src" "outfile").2.2 = [.fsRemoveFile "outfile", .ePack "src" "outfile"] ∧
    (pack (treeEngine demoArch) ⟨["src", "out"], [("outfile", [])], []⟩
      "src" "new/a.zar").2.2 =
      [.fsCreateDirAll "new", .ePack "src" "new/a.zar"] ∧
    (pack (treeEngine demoArch) ⟨["src", "out"], [("outfile", [])], []⟩
      "src" "out/a.zar").2.2 = [.ePack "src" "out/a.zar"] :=
  C8_pack_contract (treeEngine demoArch)
    ⟨["src", "out"], [("outfile", [])], []⟩
    ⟨["src", "out"], [], []⟩
    ⟨["src", "out", "new"], [("outfile", [])], []⟩
    "nosuch" "o" "src" "outfile" "src" "new/a.zar" "src" "out/a.zar" "new" "out"
    (by decide) (by decide) (by decide) (by decide) (by decide) (by decide)
    (by decide) (by decide) (by decide) (by decide) (by decide) (by decide)
    (by decide) (by decide) (by decide) (by decide)

/-- Running the extraction loop over an appended list first runs the
prefix; when the prefix fully succeeds the loop continues on the suffix
from the file system the prefix produced, with the traces
concatenated. -/
theorem extractLoop_split (eng : Engine) (dest : String) :
    ∀ (files1 : List String) (fs fsm : FS) (tr1 : List Event),
    ZR.extractLoop eng dest fs files1 = (.ok (.ok ()), fsm, tr1) →
    ∀ rest, ZR.extractLoop eng dest fs (files1 ++ rest) =
      ((ZR.extractLoop eng dest fsm rest).1,
       (ZR.extractLoop eng dest fsm rest).2.1,
       tr1 ++ (ZR.extractLoop eng dest fsm rest).2.2) := by
  intro files1
  induction files1 with
  | nil =>
    intro fs fsm tr1 h rest
    simp only [ZR.extractLoop, Prod.mk.injEq] at h
    obtain ⟨-, h2, h3⟩ := h
    subst h2; subst h3
    simp only [List.nil_append]
  | cons f frest ih =>
    intro fs fsm tr1 h rest
    simp only [List.cons_append]
    rcases hstep : ZR.extractStep eng fs dest f with ⟨r, fs1, trs⟩
    simp only [ZR.extractLoop, hstep] at h ⊢
    match r with
    | .fatal => simp [Prod.mk.injEq] at h
    | .ok (.error e) => simp [Prod.mk.injEq] at h
    | .ok (.ok ()) =>
      dsimp only at h ⊢
      rcases hrec : ZR.extractLoop eng dest fs1 frest with ⟨r2, fs2, tr2⟩
      rw [hrec] at h
      simp only [Prod.mk.injEq] at h
      obtain ⟨hr2, hfs2, htr⟩ := h
      subst hr2; subst hfs2; subst htr
      have hi := ih fs1 fs2 tr2 hrec rest
      rw [hi]
      simp [List.append_assoc]

/-- C9: extract rejects an existing-file destination outright, panics if
the eager get_files listing itself fails, and otherwise processes the
listed files strictly in order, aborting the entire batch at the first
file whose extraction fails: the result carries that file's error and the
trace ends with that file's events (no later file is touched and no
partial-success aggregation is produced). -/
theorem C9_extract_abort (eng2 eng3 : Engine) (fsA fsB fsC fsm fsn : FS)
    (destA destB destC : String) (fuelA fuelB fuelC : Nat)
    (eB eC : ZArchiveError) (files1 files2 : List String) (f : String)
    (tr1 tr2 : List Event)
    (hA : fsA.isFile destA = true)
    (hB1 : fsB.isFile destB = false)
    (hB2 : (ZR.get_files eng2 fuelB).1 = .error eB)
    (hC1 : fsC.isFile destC = false)
    (hC2 : (ZR.get_files eng3 fuelC).1 = .ok (files1 ++ f :: files2))
    (hC3 : ZR.extractLoop eng3 destC fsC files1 = (.ok (.ok ()), fsm, tr1))
    (hC4 : ZR.extractStep eng3 fsm destC f = (.ok (.error eC), fsn, tr2)) :
    ZR.extract eng2 fsA destA fuelA =
      (.ok (.error (.InvalidDestination destA)), fsA, []) ∧
    (ZR.extract eng2 fsB destB fuelB).1 = POr.fatal ∧
    ZR.extract eng3 fsC destC fuelC =
      (.ok (.error eC), fsn, (ZR.get_files eng3 fuelC).2 ++ (tr1 ++ tr2)) := by
  refine ⟨by simp [ZR.extract, hA], ?_, ?_⟩
  · rcases hg : ZR.get_files eng2 fuelB with ⟨g1, gtr⟩
    rw [hg] at hB2
    simp only at hB2
    subst hB2
    simp [ZR.extract, hB1, hg]
  · rcases hg : ZR.get_files eng3 fuelC with ⟨g1, gtr⟩
    rw [hg] at hC2
    simp only at hC2
    subst hC2
    simp only [ZR.extract, hC1, Bool.false_eq_true, if_false, hg]
    have hsplit := extractLoop_split eng3 destC files1 fsC fsm tr1 hC3 (f :: files2)
    rw [hsplit]
    have hone : ZR.extractLoop eng3 destC fsm (f :: files2) =
        (.ok (.error eC), fsn, tr2) := by
      simp only [ZR.extractLoop, hC4]
    rw [hone]

/-- Archive with two one-byte files, for the batch-abort witness. -/
def arch3 : List AEnt := [.file "a" [1], .file "b" [2]]

/-- File system with destination directory "out" and an injected IO fault
on "out/b": extracting "a" succeeds, extracting "b" fails. -/
def fsC : FS := ⟨["out"], [], ["out/b"]⟩

/-- Engine whose root resolves but whose directory enumeration fails, so
get_files returns an error. -/
def rootErrEngine : Engine where
  LookUp := fun _ _ _ => .ok 0
  IsFile := fun _ => .error "boom"
  IsDirectory := fun _ => .error "boom"
  GetDirEntryCount := fun _ => .error "boom"
  GetDirEntry := fun _ _ => .error "boom"
  GetFileSize := fun _ => .error "boom"
  ReadFromFile := fun _ _ _ => .error "boom"
  Pack := fun _ _ => .ok ()

/-- C9 witness: at the concrete two-file archive the batch aborts on the
second file with its IO error, an existing-file destination is rejected,
and a failing listing panics. -/
theorem C9_extract_abort_witness :
    (ZR.extract rootErrEngine ⟨[], [("d", [])], []⟩ "d" 1).1 =
      .ok (.error (.InvalidDestination "d")) ∧
    (ZR.extract rootErrEngine ⟨[], [], []⟩ "dest" 1).1 = POr.fatal ∧
    (ZR.extract (treeEngine arch3) fsC "out" 5).1 =
      .ok (.error (.IOError "File create failed")) := by
  have h := C9_extract_abort rootErrEngine (treeEngine arch3)
    ⟨[], [("d", [])], []⟩ ⟨[], [], []⟩ fsC
    ⟨["out"], [("out/a", [1])], ["out/b"]⟩
    ⟨["out"], [("out/a", [1])], ["out/b"]⟩
    "d" "dest" "out" 1 1 5
    (.Other "boom") (.IOError "File create failed")
    ["a"] [] "b"
    [.fsCreateDirAll "out", .acqW, .eLookUp "a" true false, .relW,
      .acqR, .eIsFile 1, .relR, .acqW, .eGetFileSize 1,
      .fsFileCreate "out/a", .fsSetLen "out/a" 1, .eReadFromFile 1 0 1,
      .fsWriteAll "out/a", .relW]
    [.fsCreateDirAll "out", .acqW, .eLookUp "b" true false, .relW,
      .acqR, .eIsFile 2, .relR, .acqW, .eGetFileSize 2,
      .fsFileCreate "out/b", .relW]
    (by decide) (by decide) (by decide) (by decide) (by decide)
    (by decide) (by decide)
  exact ⟨(congrArg (fun x => x.1) h.1).trans rfl, h.2.1,
    (congrArg (fun x => x.1) h.2.2).trans rfl⟩

/-- The RefCell-based and RwLock-based get_files loops agree: same
result and same engine-call sequence at every fuel level. -/
theorem pdeGo_agree (eng : Engine) :
    ∀ fuel nh parent count i files,
    (ZL.pdeGo eng fuel nh parent count i files).1 =
      (ZR.pdeGo eng fuel nh parent count i files).1 ∧
    engineCalls (ZL.pdeGo eng fuel nh parent count i files).2 =
      engineCalls (ZR.pdeGo eng fuel nh parent count i files).2 := by
  intro fuel
  induction fuel with
  | zero => intro nh parent count i files; simp [ZL.pdeGo, ZR.pdeGo]
  | succ n ih =>
    intro nh parent count i files
    by_cases hic : i < count
    · cases hde : eng.GetDirEntry nh i with
      | error e =>
        simp [ZL.pdeGo, ZR.pdeGo, hic, hde, engineCalls, Event.isEngineCall]
      | ok od =>
        cases od with
        | none =>
          rcases hl : ZL.pdeGo eng n nh parent count (i+1) files with ⟨rl, trl⟩
          rcases hr : ZR.pdeGo eng n nh parent count (i+1) files with ⟨rr, trr⟩
          have hih := ih nh parent count (i+1) files
          rw [hl, hr] at hih
          dsimp only at hih
          simp only [engineCalls] at hih
          simp [ZL.pdeGo, ZR.pdeGo, hic, hde, hl, hr, engineCalls,
            Event.isEngineCall, hih.1, hih.2]
        | some de =>
          by_cases hf : de.isFile
          · rcases hl : ZL.pdeGo eng n nh parent count (i+1)
                (files ++ [if parent = "" then de.name else parent ++ "/" ++ de.name])
              with ⟨rl, trl⟩
            rcases hr : ZR.pdeGo eng n nh parent count (i+1)
                (files ++ [if parent = "" then de.name else parent ++ "/" ++ de.name])
              with ⟨rr, trr⟩
            have hih := ih nh parent count (i+1)
              (files ++ [if parent = "" then de.name else parent ++ "/" ++ de.name])
            rw [hl, hr] at hih
            dsimp only at hih
            simp only [engineCalls] at hih
            simp [ZL.pdeGo, ZR.pdeGo, hic, hde, hf, hl, hr, engineCalls,
              Event.isEngineCall, hih.1, hih.2]
          · by_cases hd : de.isDirectory
            · cases hlu : eng.LookUp
                  (if parent = "" then de.name else parent ++ "/" ++ de.name)
                  false true with
              | error e =>
                simp [ZL.pdeGo, ZR.pdeGo, hic, hde, hf, hd, hlu, engineCalls,
                  Event.isEngineCall]
              | ok next =>
                by_cases hninv : next = ZARCHIVE_INVALID_NODE
                · rcases hl : ZL.pdeGo eng n nh parent count (i+1) files with ⟨rl, trl⟩
                  rcases hr : ZR.pdeGo eng n nh parent count (i+1) files with ⟨rr, trr⟩
                  have hih := ih nh parent count (i+1) files
                  rw [hl, hr] at hih
                  dsimp only at hih
                  simp only [engineCalls] at hih
                  simp [ZL.pdeGo, ZR.pdeGo, hic, hde, hf, hd, hlu, hninv, hl, hr,
                    engineCalls, Event.isEngineCall, hih.1, hih.2]
                · cases hcnt : eng.GetDirEntryCount next with
                  | error e =>
                    simp [ZL.pdeGo, ZR.pdeGo, hic, hde, hf, hd, hlu, hninv, hcnt,
                      engineCalls, Event.isEngineCall]
                  | ok cnt =>
                    rcases hl1 : ZL.pdeGo eng n next
                        (if parent = "" then de.name else parent ++ "/" ++ de.name)
                        cnt 0 files with ⟨rl1, trl1⟩
                    rcases hr1 : ZR.pdeGo eng n next
                        (if parent = "" then de.name else parent ++ "/" ++ de.name)
                        cnt 0 files with ⟨rr1, trr1⟩
                    have hih1 := ih next
                      (if parent = "" then de.name else parent ++ "/" ++ de.name)
                      cnt 0 files
                    rw [hl1, hr1] at hih1
                    dsimp only at hih1
                    simp only [engineCalls] at hih1
                    cases rr1 with
                    | error e1 =>
                      simp [ZL.pdeGo, ZR.pdeGo, hic, hde, hf, hd, hlu, hninv, hcnt,
                        hl1, hr1, engineCalls, Event.isEngineCall, hih1.1, hih1.2]
                    | ok files1 =>
                      have hrl1 : rl1 = .ok files1 := hih1.1
                      subst hrl1
                      rcases hl2 : ZL.pdeGo eng n nh parent count (i+1) files1
                        with ⟨rl2, trl2⟩
                      rcases hr2 : ZR.pdeGo eng n nh parent count (i+1) files1
                        with ⟨rr2, trr2⟩
                      have hih2 := ih nh parent count (i+1) files1
                      rw [hl2, hr2] at hih2
                      dsimp only at hih2
                      simp only [engineCalls] at hih2
                      simp [ZL.pdeGo, ZR.pdeGo, hic, hde, hf, hd, hlu, hninv, hcnt,
                        hl1, hr1, hl2, hr2, engineCalls, Event.isEngineCall,
                        hih1.2, hih2.1, hih2.2]
            · rcases hl : ZL.pdeGo eng n nh parent count (i+1) files with ⟨rl, trl⟩
              rcases hr : ZR.pdeGo eng n nh parent count (i+1) files with ⟨rr, trr⟩
              have hih := ih nh parent count (i+1) files
              rw [hl, hr] at hih
              dsimp only at hih
              simp only [engineCalls] at hih
              simp [ZL.pdeGo, ZR.pdeGo, hic, hde, hf, hd, hl, hr, engineCalls,
                Event.isEngineCall, hih.1, hih.2]
    · simp [ZL.pdeGo, ZR.pdeGo, hic, engineCalls]

/-- The two read_file implementations agree on results and engine
calls. -/
theorem read_file_agree (eng : Engine) (f : String) :
    (ZL.read_file eng f).1 = (ZR.read_file eng f).1 ∧
    engineCalls (ZL.read_file eng f).2 = engineCalls (ZR.read_file eng f).2 := by
  unfold ZL.read_file ZR.read_file
  refine ⟨?_, ?_⟩ <;>
  · repeat' split
    all_goals simp [engineCalls, Event.isEngineCall]

/-- The two read_from_file implementations agree on results and engine
calls. -/
theorem read_from_file_agree (eng : Engine) (f : String) (off len : Nat) :
    (ZL.read_from_file eng f off len).1 = (ZR.read_from_file eng f off len).1 ∧
    engineCalls (ZL.read_from_file eng f off len).2 =
      engineCalls (ZR.read_from_file eng f off len).2 := by
  unfold ZL.read_from_file ZR.read_from_file
  refine ⟨?_, ?_⟩ <;>
  · repeat' split
    all_goals simp [engineCalls, Event.isEngineCall]

/-- The two extract_file implementations agree on results, the resulting
file system, and engine calls. -/
theorem extract_file_agree (eng : Engine) (fs : FS) (f dest : String) :
    (ZL.extract_file eng fs f dest).1 = (ZR.extract_file eng fs f dest).1 ∧
    (ZL.extract_file eng fs f dest).2.1 = (ZR.extract_file eng fs f dest).2.1 ∧
    engineCalls (ZL.extract_file eng fs f dest).2.2 =
      engineCalls (ZR.extract_file eng fs f dest).2.2 := by
  unfold ZL.extract_file ZR.extract_file
  by_cases hdd : fs.isDir dest
  · cases hpp : parentPath (pathJoin dest f) with
    | none =>
      refine ⟨?_, ?_, ?_⟩ <;>
      · simp only [hdd, if_pos, if_true, hpp]
        repeat' split
        all_goals simp [engineCalls, Event.isEngineCall]
    | some pp =>
      cases hcda : fs.createDirAll pp with
      | error e =>
        refine ⟨?_, ?_, ?_⟩ <;>
        · simp only [hdd, if_pos, if_true, hpp, hcda]
          repeat' split
          all_goals simp [engineCalls, Event.isEngineCall]
      | ok fs1 =>
        refine ⟨?_, ?_, ?_⟩ <;>
        · simp only [hdd, if_pos, if_true, hpp, hcda]
          repeat' split
          all_goals simp [engineCalls, Event.isEngineCall]
  · cases hpp : parentPath dest with
    | none =>
      refine ⟨?_, ?_, ?_⟩ <;>
      · simp only [hdd, Bool.not_eq_true, if_neg, if_false, hpp]
        repeat' split
        all_goals simp [engineCalls, Event.isEngineCall]
    | some pp =>
      cases hcda : fs.createDirAll pp with
      | error e =>
        refine ⟨?_, ?_, ?_⟩ <;>
        · simp only [hdd, Bool.not_eq_true, if_neg, if_false, hpp, hcda]
          repeat' split
          all_goals simp [engineCalls, Event.isEngineCall]
      | ok fs1 =>
        refine ⟨?_, ?_, ?_⟩ <;>
        · simp only [hdd, Bool.not_eq_true, if_neg, if_false, hpp, hcda]
          repeat' split
          all_goals simp [engineCalls, Event.isEngineCall]

/-- The two iter implementations agree on results and engine calls. -/
theorem iter_agree (eng : Engine) :
    (ZL.iter eng).1 = (ZR.iter eng).1 ∧
    engineCalls (ZL.iter eng).2 = engineCalls (ZR.iter eng).2 := by
  unfold ZL.iter ZR.iter
  refine ⟨?_, ?_⟩ <;>
  · repeat' split
    all_goals simp [engineCalls, Event.isEngineCall]

/-- The two iter_dir implementations agree on engine calls always, and on
results whenever the entry's parent components together with its name fit
the reader.rs ArrayVec capacity; past that bound the reader.rs version
panics where the lib.rs version succeeds, so the result agreement is
conditional. -/
theorem iter_dir_agree (eng : Engine) (d : DirEntry)
    (hd : d.parent.length + 1 ≤ ARRAYVEC_PARENT_CAPACITY) :
    (ZR.iter_dir eng d).1 = .ok (ZL.iter_dir eng d).1 ∧
    engineCalls (ZL.iter_dir eng d).2 = engineCalls (ZR.iter_dir eng d).2 := by
  have hcap : ¬ (d.parent ++ [d.name]).length > ARRAYVEC_PARENT_CAPACITY := by
    simp only [List.length_append, List.length_cons, List.length_nil]
    omega
  unfold ZL.iter_dir ZR.iter_dir
  refine ⟨?_, ?_⟩ <;>
  · simp only [if_neg hcap]
    repeat' split
    all_goals simp [engineCalls, Event.isEngineCall]

/-- The two count_dir_entries implementations agree on results and engine
calls. -/
theorem count_dir_entries_agree (eng : Engine) (d : DirEntry) :
    (ZL.count_dir_entries eng d).1 = (ZR.count_dir_entries eng d).1 ∧
    engineCalls (ZL.count_dir_entries eng d).2 =
      engineCalls (ZR.count_dir_entries eng d).2 := by
  unfold ZL.count_dir_entries ZR.count_dir_entries
  refine ⟨?_, ?_⟩ <;>
  · repeat' split
    all_goals simp [engineCalls, Event.isEngineCall]

/-- The two iterator next implementations agree on the yielded entry, the
successor state, and engine calls. -/
theorem iterNext_agree (eng : Engine) (it : DirIter) :
    (ZL.iterNext eng it).1 = (ZR.iterNext eng it).1 ∧
    (ZL.iterNext eng it).2.1 = (ZR.iterNext eng it).2.1 ∧
    engineCalls (ZL.iterNext eng it).2.2 =
      engineCalls (ZR.iterNext eng it).2.2 := by
  by_cases hs : it.started
  · by_cases hidx : it.count ≤ it.index
    · simp [ZL.iterNext, ZR.iterNext, hs, hidx, engineCalls]
    · cases hde : eng.GetDirEntry it.handle it.index with
      | error e =>
        simp [ZL.iterNext, ZR.iterNext, hs, hidx, hde, engineCalls,
          Event.isEngineCall]
      | ok od =>
        cases od <;>
          simp [ZL.iterNext, ZR.iterNext, hs, hidx, hde, engineCalls,
            Event.isEngineCall]
  · cases hc : eng.GetDirEntryCount it.handle with
    | error e =>
      simp [ZL.iterNext, ZR.iterNext, hs, hc, engineCalls, Event.isEngineCall]
    | ok c =>
      by_cases hidx : c ≤ it.index
      · simp [ZL.iterNext, ZR.iterNext, hs, hc, hidx, engineCalls,
          Event.isEngineCall]
      · cases hde : eng.GetDirEntry it.handle it.index with
        | error e =>
          simp [ZL.iterNext, ZR.iterNext, hs, hc, hidx, hde, engineCalls,
            Event.isEngineCall]
        | ok od =>
          cases od <;>
            simp [ZL.iterNext, ZR.iterNext, hs, hc, hidx, hde, engineCalls,
              Event.isEngineCall]

/-- The two get_files implementations agree on results and engine
calls. -/
theorem get_files_agree (eng : Engine) (fuel : Nat) :
    (ZL.get_files eng fuel).1 = (ZR.get_files eng fuel).1 ∧
    engineCalls (ZL.get_files eng fuel).2 =
      engineCalls (ZR.get_files eng fuel).2 := by
  cases hL : eng.LookUp "" false true with
  | error e => simp [ZL.get_files, ZR.get_files, hL, engineCalls, Event.isEngineCall]
  | ok root =>
    by_cases hinv : root = ZARCHIVE_INVALID_NODE
    · simp [ZL.get_files, ZR.get_files, hL, hinv, engineCalls, Event.isEngineCall]
    · cases hC : eng.GetDirEntryCount root with
      | error e =>
        simp [ZL.get_files, ZR.get_files, hL, hinv, hC, engineCalls,
          Event.isEngineCall]
      | ok count =>
        rcases hl : ZL.pdeGo eng fuel root "" count 0 [] with ⟨rl, trl⟩
        rcases hr : ZR.pdeGo eng fuel root "" count 0 [] with ⟨rr, trr⟩
        have hih := pdeGo_agree eng fuel root "" count 0 []
        rw [hl, hr] at hih
        dsimp only at hih
        simp only [engineCalls] at hih
        simp [ZL.get_files, ZR.get_files, hL, hinv, hC, hl, hr, engineCalls,
          Event.isEngineCall, hih.1, hih.2]

/-- Archive nested six directories deep, for the capacity-divergence
counterexample. -/
def arch6 : List AEnt :=
  [.dir "a" [.dir "b" [.dir "c" [.dir "d" [.dir "e" [.dir "f" []]]]]]]

/-- The DirEntry that walking arch6 produces for the depth-six directory
"f": five parent components, exactly filling the reader.rs ArrayVec. -/
def deepEntryF : DirEntry := ⟨⟨"f", false, true, 0⟩, ["a", "b", "c", "d", "e"]⟩

/-- C10 counterexample: with identical engine responses, iter_dir on the
depth-six directory entry of arch6 panics in the reader.rs implementation
(collecting six path components into the capacity-5 tinyvec ArrayVec)
while the lib.rs implementation (spilling SmallVec) succeeds and returns
an iterator: the two implementations do not produce equal results. -/
theorem C10_depth_divergence :
    (ZR.iter_dir (treeEngine arch6) deepEntryF).1 = POr.fatal ∧
    (ZL.iter_dir (treeEngine arch6) deepEntryF).1 =
      .ok (DirIter.new 6 ["a", "b", "c", "d", "e", "f"]) := by decide

/-- C10 amended: for any single-threaded call and identical engine
responses, the RefCell-based reader of lib.rs and the RwLock-based reader
of reader.rs agree on open, read_file, read_from_file, extract_file
(result and resulting file system), get_files, iter, count_dir_entries
and the iterator's next - same returned values, same error/option
outcomes, same iterator states, same sequence of engine calls - and on
iter_dir whenever the entry's parent components plus its name fit the
reader.rs ArrayVec capacity of five; past that bound (nesting depth six)
the reader.rs iter_dir panics while the lib.rs one succeeds. -/
theorem C10_refcell_rwlock_equiv (eng : Engine) (r : Except String Unit)
    (path f dest : String) (off len fuel : Nat) (fs : FS) (d : DirEntry)
    (it : DirIter)
    (hd : d.parent.length + 1 ≤ ARRAYVEC_PARENT_CAPACITY) :
    ZL.new r path = ZR.openA r path ∧
    (ZL.read_file eng f).1 = (ZR.read_file eng f).1 ∧
    engineCalls (ZL.read_file eng f).2 = engineCalls (ZR.read_file eng f).2 ∧
    (ZL.read_from_file eng f off len).1 = (ZR.read_from_file eng f off len).1 ∧
    engineCalls (ZL.read_from_file eng f off len).2 =
      engineCalls (ZR.read_from_file eng f off len).2 ∧
    (ZL.extract_file eng fs f dest).1 = (ZR.extract_file eng fs f dest).1 ∧
    (ZL.extract_file eng fs f dest).2.1 = (ZR.extract_file eng fs f dest).2.1 ∧
    engineCalls (ZL.extract_file eng fs f dest).2.2 =
      engineCalls (ZR.extract_file eng fs f dest).2.2 ∧
    (ZL.get_files eng fuel).1 = (ZR.get_files eng fuel).1 ∧
    engineCalls (ZL.get_files eng fuel).2 =
      engineCalls (ZR.get_files eng fuel).2 ∧
    (ZL.iter eng).1 = (ZR.iter eng).1 ∧
    engineCalls (ZL.iter eng).2 = engineCalls (ZR.iter eng).2 ∧
    (ZR.iter_dir eng d).1 = .ok (ZL.iter_dir eng d).1 ∧
    engineCalls (ZL.iter_dir eng d).2 = engineCalls (ZR.iter_dir eng d).2 ∧
    (ZL.count_dir_entries eng d).1 = (ZR.count_dir_entries eng d).1 ∧
    engineCalls (ZL.count_dir_entries eng d).2 =
      engineCalls (ZR.count_dir_entries eng d).2 ∧
    (ZL.iterNext eng it).1 = (ZR.iterNext eng it).1 ∧
    (ZL.iterNext eng it).2.1 = (ZR.iterNext eng it).2.1 ∧
    engineCalls (ZL.iterNext eng it).2.2 =
      engineCalls (ZR.iterNext eng it).2.2 :=
  ⟨by cases r <;> rfl,
    (read_file_agree eng f).1, (read_file_agree eng f).2,
    (read_from_file_agree eng f off len).1, (read_from_file_agree eng f off len).2,
    (extract_file_agree eng fs f dest).1, (extract_file_agree eng fs f dest).2.1,
    (extract_file_agree eng fs f dest).2.2,
    (get_files_agree eng fuel).1, (get_files_agree eng fuel).2,
    (iter_agree eng).1, (iter_agree eng).2,
    (iter_dir_agree eng d hd).1, (iter_dir_agree eng d hd).2,
    (count_dir_entries_agree eng d).1, (count_dir_entries_agree eng d).2,
    (iterNext_agree eng it).1, (iterNext_agree eng it).2.1,
    (iterNext_agree eng it).2.2⟩

/-- C10 witness: the amended agreement at a concrete engine and an entry
within the capacity bound. -/
theorem C10_refcell_rwlock_equiv_witness :
    (ZR.iter_dir (treeEngine dirFileArch) dirEntryD).1 =
      .ok (ZL.iter_dir (treeEngine dirFileArch) dirEntryD).1 ∧
    (ZL.read_file (treeEngine dirFileArch) "f").1 =
      (ZR.read_file (treeEngine dirFileArch) "f").1 := by
  have h := C10_refcell_rwlock_equiv (treeEngine dirFileArch) (.ok ())
    "p" "f" "d" 0 0 1 ⟨[], [], []⟩ dirEntryD (DirIter.new 0 []) (by decide)
  exact ⟨h.2.2.2.2.2.2.2.2.2.2.2.2.1, h.2.1⟩

/-- In a table with distinct keys, lookupIdx finds exactly the index of a
member pair. -/
theorem lookupIdx_nodup {α : Type} (tbl : List (String × α)) (p : String)
    (x : α) (hnd : (tbl.map Prod.fst).Nodup) (hmem : (p, x) ∈ tbl) :
    ∃ j, lookupIdx p tbl = some j ∧ tbl.get? j = some (p, x) := by
  induction tbl with
  | nil => cases hmem
  | cons hd t ih =>
    obtain ⟨q, y⟩ := hd
    rw [List.map_cons, List.nodup_cons] at hnd
    rcases List.mem_cons.mp hmem with heq | hmem'
    · obtain ⟨hp, hx⟩ := Prod.mk.injEq .. ▸ heq
      subst hp; subst hx
      exact ⟨0, by simp [lookupIdx], by simp⟩
    · by_cases hqp : q = p
      · subst hqp
        exact absurd (List.mem_map.mpr ⟨(q, x), hmem', rfl⟩) hnd.1
      · obtain ⟨j, hj1, hj2⟩ := ih hnd.2 hmem'
        exact ⟨j + 1, by simp [lookupIdx, hqp, hj1], by simpa using hj2⟩

/-- A directory child of a forest appears in the forest's directory
table under its joined path. -/
theorem mem_dirTableList_of_child (parent : String) (es : List AEnt)
    (n : String) (ds : List AEnt) (h : AEnt.dir n ds ∈ es) :
    (joinPath parent n, ds) ∈ dirTableList parent es := by
  induction es with
  | nil => cases h
  | cons e t ih =>
    rcases List.mem_cons.mp h with he | ht
    · subst he
      simp only [dirTableList, dirTableEnt]
      exact List.mem_append_left _ (List.mem_cons_self _ _)
    · simp only [dirTableList]
      exact List.mem_append_right _ (ih ht)

mutual

/-- Every directory-table entry below an entry of the table contributed
by one node is itself in that contribution. -/
theorem subtable_ent (parent : String) (e : AEnt) :
    ∀ p cs, (p, cs) ∈ dirTableEnt parent e →
    ∀ x, x ∈ dirTableList p cs → x ∈ dirTableEnt parent e := by
  match e with
  | .file n c => intro p cs hmem; cases hmem
  | .dir n ds =>
    intro p cs hmem x hx
    simp only [dirTableEnt] at hmem ⊢
    rcases List.mem_cons.mp hmem with he | ht
    · obtain ⟨hp, hcs⟩ := Prod.mk.injEq .. ▸ he
      subst hp; subst hcs
      exact List.mem_cons_of_mem _ hx
    · exact List.mem_cons_of_mem _
        (subtable_list (joinPath parent n) ds p cs ht x hx)

/-- Every directory-table entry below an entry of the table contributed
by a forest is itself in that contribution. -/
theorem subtable_list (parent : String) (es : List AEnt) :
    ∀ p cs, (p, cs) ∈ dirTableList parent es →
    ∀ x, x ∈ dirTableList p cs → x ∈ dirTableList parent es := by
  match es with
  | [] => intro p cs hmem; cases hmem
  | e :: t =>
    intro p cs hmem x hx
    simp only [dirTableList] at hmem ⊢
    rcases List.mem_append.mp hmem with he | ht
    · exact List.mem_append_left _ (subtable_ent parent e p cs he x hx)
    · exact List.mem_append_right _ (subtable_list parent t p cs ht x hx)

end

/-- The full directory table is closed under taking the sub-table of any
of its members. -/
theorem dirTable_closed (root : List AEnt) (p : String) (cs : List AEnt)
    (hmem : (p, cs) ∈ dirTable root) :
    ∀ x, x ∈ dirTableList p cs → x ∈ dirTable root := by
  intro x hx
  rcases List.mem_cons.mp hmem with he | ht
  · obtain ⟨hp, hcs⟩ := Prod.mk.injEq .. ▸ he
    subst hp; subst hcs
    exact List.mem_cons_of_mem _ hx
  · exact List.mem_cons_of_mem _ (subtable_list "" root p cs ht x hx)

/-- needList is always positive. -/
theorem needList_pos (es : List AEnt) : 1 ≤ needList es := by
  cases es <;> simp [needList] <;> omega

/-- Splitting needList at an in-range index. -/
theorem needList_drop_succ (cs : List AEnt) (i : Nat) (hic : i < cs.length) :
    needList (cs.drop i) = 1 + needEnt cs[i] + needList (cs.drop (i + 1)) := by
  rw [List.drop_eq_getElem_cons hic]
  rfl

/-- Splitting the specification file listing at an in-range index. -/
theorem specFilesList_drop_succ (p : String) (cs : List AEnt) (i : Nat)
    (hic : i < cs.length) :
    specFilesList p (cs.drop i) =
      specFilesEnt p cs[i] ++ specFilesList p (cs.drop (i + 1)) := by
  rw [List.drop_eq_getElem_cons hic]
  rfl

/-- Splitting the directory table of a forest at an in-range index. -/
theorem dirTableList_drop_succ (p : String) (cs : List AEnt) (i : Nat)
    (hic : i < cs.length) :
    dirTableList p (cs.drop i) =
      dirTableEnt p cs[i] ++ dirTableList p (cs.drop (i + 1)) := by
  rw [List.drop_eq_getElem_cons hic]
  rfl

/-- GetDirEntry of the tree engine at a valid directory handle. -/
theorem treeEngine_GetDirEntry (root : List AEnt) (h : Nat) (p : String)
    (cs : List AEnt) (i : Nat) (hh : (dirTable root).get? h = some (p, cs)) :
    (treeEngine root).GetDirEntry h i = .ok ((cs.get? i).map entData) := by
  simp only [List.get?_eq_getElem?] at hh
  simp [treeEngine, hh]

/-- GetDirEntryCount of the tree engine at a valid directory handle. -/
theorem treeEngine_GetDirEntryCount (root : List AEnt) (h : Nat) (p : String)
    (cs : List AEnt) (hh : (dirTable root).get? h = some (p, cs)) :
    (treeEngine root).GetDirEntryCount h = .ok cs.length := by
  simp only [List.get?_eq_getElem?] at hh
  simp [treeEngine, hh]

/-- Directory-mode LookUp of the tree engine resolves through
lookupIdx. -/
theorem treeEngine_LookUp_dir (root : List AEnt) (q : String) (j : Nat)
    (hj : lookupIdx q (dirTable root) = some j) :
    (treeEngine root).LookUp q false true = .ok j := by
  simp [treeEngine, hj]

/-- joinPath in the if-normal form produced by the simplifier. -/
theorem joinPath_eq (p nm : String) :
    joinPath p nm = if p = "" then nm else p ++ "/" ++ nm := by
  by_cases hp : p = "" <;> simp [joinPath, hp]

/-- Main traversal invariant of get_files over the tree engine: starting
at entry index i of the directory at handle h (a valid dirTable index),
with enough fuel, the loop returns the accumulated files followed by the
specification-level depth-first listing of the remaining entries, and its
trace re-resolves every subdirectory it descends into by a LookUp of the
full path with allow_file = false, allow_directory = true. -/
theorem pdeGo_tree (root : List AEnt) (hwf : wfA root) :
    ∀ fuel p cs h i files,
    (dirTable root).get? h = some (p, cs) →
    needList (cs.drop i) ≤ fuel →
    (ZR.pdeGo (treeEngine root) fuel h p cs.length i files).1 =
      .ok (files ++ specFilesList p (cs.drop i)) ∧
    ∀ q ds, (q, ds) ∈ dirTableList p (cs.drop i) →
      Event.eLookUp q false true ∈
        (ZR.pdeGo (treeEngine root) fuel h p cs.length i files).2 := by
  intro fuel
  induction fuel with
  | zero =>
    intro p cs h i files hh hf
    have := needList_pos (cs.drop i)
    omega
  | succ n ih =>
    intro p cs h i files hh hf
    by_cases hic : i < cs.length
    · have hde := treeEngine_GetDirEntry root h p cs i hh
      have hget : cs.get? i = some cs[i] := by
        simp [List.get?_eq_getElem?, List.getElem?_eq_getElem hic]
      rw [hget] at hde
      have hfsplit := needList_drop_succ cs i hic
      have hssplit := specFilesList_drop_succ p cs i hic
      have hdsplit := dirTableList_drop_succ p cs i hic
      cases hcase : cs[i] with
      | file nm content =>
        rw [hcase] at hde hfsplit hssplit hdsplit
        rcases hrec : ZR.pdeGo (treeEngine root) n h p cs.length (i+1)
            (files ++ [if p = "" then nm else p ++ "/" ++ nm]) with ⟨r, tr⟩
        have hihr := ih p cs h (i+1)
          (files ++ [if p = "" then nm else p ++ "/" ++ nm]) hh (by
            simp [needEnt] at hfsplit; omega)
        rw [hrec] at hihr
        dsimp only at hihr
        obtain ⟨hr, htr⟩ := hihr
        have heq : ZR.pdeGo (treeEngine root) (n+1) h p cs.length i files =
            (r, [Event.acqR, .eGetDirEntry h i, .relR] ++ tr) := by
          simp [ZR.pdeGo, hic, hde, entData, hrec]
        constructor
        · rw [heq]
          dsimp only
          rw [hr, hssplit]
          simp [specFilesEnt, joinPath_eq, List.append_assoc]
        · intro q ds hq
          rw [hdsplit] at hq
          simp only [dirTableEnt, List.nil_append] at hq
          rw [heq]
          dsimp only
          exact List.mem_append_right _ (htr q ds hq)
      | dir nm ds =>
        rw [hcase] at hde hfsplit hssplit hdsplit
        have hmem_pcs : (p, cs) ∈ dirTable root := by
          have h2 := hh
          rw [List.get?_eq_getElem?] at h2
          exact List.getElem?_mem h2
        have hchild : AEnt.dir nm ds ∈ cs := by
          have h2 : cs[i]? = some cs[i] := List.getElem?_eq_getElem hic
          rw [hcase] at h2
          exact List.getElem?_mem h2
        have hsub : (joinPath p nm, ds) ∈ dirTable root :=
          dirTable_closed root p cs hmem_pcs _
            (mem_dirTableList_of_child p cs nm ds hchild)
        obtain ⟨j, hj1, hj2⟩ :=
          lookupIdx_nodup (dirTable root) (joinPath p nm) ds hwf.1 hsub
        rw [joinPath_eq] at hj1 hj2
        have hlu := treeEngine_LookUp_dir root
          (if p = "" then nm else p ++ "/" ++ nm) j hj1
        have hjlt : j < (dirTable root).length := by
          rw [List.get?_eq_getElem?] at hj2
          obtain ⟨hlt, -⟩ := List.getElem?_eq_some.mp hj2
          exact hlt
        have hjne : j ≠ ZARCHIVE_INVALID_NODE := by
          have h2 := hwf.2
          unfold ZARCHIVE_INVALID_NODE at h2 ⊢
          omega
        have hcnt := treeEngine_GetDirEntryCount root j
          (if p = "" then nm else p ++ "/" ++ nm) ds hj2
        have hfds : needList ds ≤ n := by
          simp [needEnt] at hfsplit; omega
        have hfcont : needList (cs.drop (i+1)) ≤ n := by
          simp [needEnt] at hfsplit; omega
        rcases hrec1 : ZR.pdeGo (treeEngine root) n j
            (if p = "" then nm else p ++ "/" ++ nm) ds.length 0 files
          with ⟨r1, tr1⟩
        have hih1 := ih (if p = "" then nm else p ++ "/" ++ nm) ds j 0 files
          hj2 (by simpa using hfds)
        rw [hrec1] at hih1
        dsimp only at hih1
        obtain ⟨hr1, htr1⟩ := hih1
        simp only [List.drop_zero] at hr1 htr1
        subst hr1
        rcases hrec2 : ZR.pdeGo (treeEngine root) n h p cs.length (i+1)
            (files ++ specFilesList (if p = "" then nm else p ++ "/" ++ nm) ds)
          with ⟨r2, tr2⟩
        have hih2 := ih p cs h (i+1)
          (files ++ specFilesList (if p = "" then nm else p ++ "/" ++ nm) ds)
          hh hfcont
        rw [hrec2] at hih2
        dsimp only at hih2
        obtain ⟨hr2, htr2⟩ := hih2
        have heq : ZR.pdeGo (treeEngine root) (n+1) h p cs.length i files =
            (r2, [Event.acqR, .eGetDirEntry h i, .relR,
              .acqW, .eLookUp (if p = "" then nm else p ++ "/" ++ nm) false true,
              .relW, .acqR, .eGetDirEntryCount j, .relR] ++ tr1 ++ tr2) := by
          simp [ZR.pdeGo, hic, hde, entData, hlu, hjne, hcnt, hrec1, hrec2]
        constructor
        · rw [heq]
          dsimp only
          rw [hr2, hssplit]
          simp [specFilesEnt, joinPath_eq, List.append_assoc]
        · intro q dq hq
          rw [hdsplit] at hq
          simp only [dirTableEnt, joinPath_eq, List.cons_append,
            List.mem_cons, List.mem_append, Prod.mk.injEq] at hq
          rw [heq]
          dsimp only
          rcases hq with ⟨hq1, hq2⟩ | hq | hq
          · subst hq1
            simp
          · have := htr1 q dq hq
            simp only [List.append_assoc, List.mem_append]
            right; left; exact this
          · have := htr2 q dq hq
            simp only [List.append_assoc, List.mem_append]
            right; right; exact this
    · have hdrop : cs.drop i = [] := List.drop_eq_nil_of_le (Nat.le_of_not_lt hic)
      constructor
      · simp [ZR.pdeGo, hic, hdrop, specFilesList]
      · intro q ds hq
        rw [hdrop] at hq
        cases hq

/-- C5: on any well-formed archive tree with sufficient fuel, get_files
returns exactly the specification-level depth-first listing
(parent-before-children, entries in engine-reported index order, each
file's full path appended in visitation order), and for every
subdirectory in the archive the trace contains a fresh LookUp of its full
path with allow_file = false and allow_directory = true - the re-resolve
behaviour the claim requires. -/
theorem C5_get_files_dfs (root : List AEnt) (fuel : Nat) (hwf : wfA root)
    (hfuel : needList root ≤ fuel) :
    (ZR.get_files (treeEngine root) fuel).1 = .ok (specFilesList "" root) ∧
    ∀ q ds, (q, ds) ∈ dirTableList "" root →
      Event.eLookUp q false true ∈ (ZR.get_files (treeEngine root) fuel).2 := by
  have hroot : (dirTable root).get? 0 = some ("", root) := rfl
  have hlu0 : (treeEngine root).LookUp "" false true = .ok 0 := by
    simp [treeEngine, lookupIdx, dirTable]
  have h0ne : ¬ (0 : Nat) = ZARCHIVE_INVALID_NODE := by
    unfold ZARCHIVE_INVALID_NODE; omega
  have hcnt0 := treeEngine_GetDirEntryCount root 0 "" root hroot
  rcases hrec : ZR.pdeGo (treeEngine root) fuel 0 "" root.length 0 []
    with ⟨r, tr⟩
  have hmain := pdeGo_tree root hwf fuel "" root 0 0 [] hroot
    (by simpa using hfuel)
  rw [hrec] at hmain
  dsimp only at hmain
  obtain ⟨h1, h2⟩ := hmain
  simp only [List.drop_zero, List.nil_append] at h1 h2
  have heq : ZR.get_files (treeEngine root) fuel =
      (r, [Event.acqW, .eLookUp "" false true, .relW,
        .acqR, .eGetDirEntryCount 0, .relR] ++ tr) := by
    simp [ZR.get_files, hlu0, h0ne, hcnt0, hrec]
  constructor
  · rw [heq]
    exact h1
  · intro q ds hq
    rw [heq]
    exact List.mem_append_right _ (h2 q ds hq)

/-- Archive with a nested directory, for the traversal witness. -/
def demoArch2 : List AEnt := [.dir "d" [.file "f" [1]], .file "g" [2]]

/-- C5 witness: the depth-first listing of the concrete nested archive. -/
theorem C5_get_files_dfs_witness :
    (ZR.get_files (treeEngine demoArch2) 6).1 = .ok (specFilesList "" demoArch2) :=
  (C5_get_files_dfs demoArch2 6 (by decide) (by decide)).1
